import Mathlib

/-!
Shallow embedding of the authoritative Least Count host
(`least_count_game/host/least_count_host.py`).

Cards are the same string tokens the Python host uses (`"7H"`, `"10S"`,
`"ZB"`, ...).  The mutable module-level state of the host is collected in
a `GameState` structure, and each network-action branch of the host's main
loop becomes a function `GameState → ... → GameState`.  Python dictionaries
with a `.get(key, default)` read discipline are modelled as total functions
(the default is the value outside the tracked key list), and `dict` key sets
are carried as explicit key lists where iteration order matters.
-/

namespace PiGame

abbrev Card := String

/-- Python `card[:-1] if len(card) > 1 else card` — the face used for hand cards
throughout `least_count_host.py`. -/
def cardFace (c : Card) : String :=
  if c.length > 1 then c.dropRight 1 else c

/-- Model of Python `int(s)` on the short face strings the host feeds it:
optional sign followed by one or more decimal digits; anything else raises
(`none` here, which the host turns into its defensive fallback). -/
def pyDigits (cs : List Char) : Option Nat :=
  if cs ≠ [] ∧ cs.all Char.isDigit then
    some (cs.foldl (fun a c => a * 10 + (c.toNat - 48)) 0)
  else none

def pyInt (s : String) : Option Int :=
  match s.data with
  | [] => none
  | c :: rest =>
    if c = '-' then (pyDigits rest).map (fun n => -(n : Int))
    else if c = '+' then (pyDigits rest).map (fun n => (n : Int))
    else (pyDigits (c :: rest)).map (fun n => (n : Int))

/-- Function `card_points` from the host: 0 for jokers and the designated joker rank,
1 for an Ace, 10 for J/Q/K, `int(face)` otherwise with a defensive 0 when
parsing fails. -/
def card_points (jokerRank : Option String) (card : Card) : Int :=
  let face := cardFace card
  if some face = jokerRank ∨ card = "ZB" ∨ card = "ZR" then 0
  else if face = "A" then 1
  else if face = "J" ∨ face = "Q" ∨ face = "K" then 10
  else (pyInt face).getD 0

/-- Function `card_sort_key` from the host (display ordering only). -/
def card_sort_key (jokerRank : Option String) (card : Card) : Int × Nat :=
  let face := cardFace card
  if some face = jokerRank ∨ card = "ZB" ∨ card = "ZR" then (0, 0)
  else
    let suitChar := card.back
    let suit : Nat :=
      if suitChar = 'S' then 0 else if suitChar = 'C' then 1
      else if suitChar = 'D' then 2 else if suitChar = 'H' then 3 else 9
    let rank : Int :=
      if face = "A" then 1 else if face = "J" then 11
      else if face = "Q" then 12 else if face = "K" then 13
      else (pyInt face).getD 99
    (rank, suit)

/-- Lexicographic `≤` on sort keys, as Python tuple comparison. -/
def key_le (a b : Int × Nat) : Bool :=
  decide (a.1 < b.1 ∨ (a.1 = b.1 ∧ a.2 ≤ b.2))

/-- Python `sorted(hand, key=card_sort_key)`: Python's `sorted` is a stable sort
by key, modelled by a stable insertion sort. -/
def sortCards (jokerRank : Option String) (l : List Card) : List Card :=
  l.insertionSort
    (fun a b => key_le (card_sort_key jokerRank a) (card_sort_key jokerRank b) = true)

/-- One record of `round_history`. -/
structure RoundEntry where
  round_no : Nat
  round_points : List (Nat × Int)
  show_pid : Nat
  outcome : String
deriving DecidableEq

/-- Contents of `last_round_summary` (the fields the claims speak about). -/
structure RoundSummary where
  round_no : Nat
  joker_card : Option Card
  joker_rank : Option String
  show_pid : Nat
  show_total : Int
  round_points : List (Nat × Int)
  outcome : String
  same_or_less_players : List Nat
  min_players : List Nat
  newly_out : List Nat
deriving DecidableEq

/-- The host's module-level mutable state.
`scores_total` is a dict; `scores_keys` is its key list (insertion order)
and `scores_total` the value function (meaningful on the keys).
`turn_phase` reads are `turn_phase.get(pid, "discard")`, `show_available`
reads are `.get(pid, False)`, `turn_open_discard` reads `.get(pid, {})`;
all three are therefore modelled as total functions whose value *is* that
defaulted read. -/
structure GameState where
  hands : Nat → List Card
  discard_pile : List Card
  deck : List Card
  turn_order : List Nat
  current_turn_idx : Nat
  turn_phase : Nat → String
  show_available : Nat → Bool
  turn_open_discard : Nat → Option (Nat × Card)
  scores_keys : List Nat
  scores_total : Nat → Int
  eliminated : Nat → Bool
  round_over : Bool
  round_no : Nat
  joker_card : Option Card
  joker_rank : Option String
  round_history : List RoundEntry
  last_round_summary : Option RoundSummary
  max_points_out : Int
  match_over : Bool
  match_winner : Option Nat
  match_end_reason : Option String
  game_started : Bool
  player_order : List Nat
  dealer_pid : Nat

/-- Function `hand_total(pid)`. -/
def hand_total (s : GameState) (pid : Nat) : Int :=
  ((s.hands pid).map (card_points s.joker_rank)).sum

/-- Pointwise update of a dict-as-function. -/
def updf {α : Type} (f : Nat → α) (k : Nat) (v : α) : Nat → α :=
  fun q => if q = k then v else f q

/-- Expression `turn_order[current_turn_idx]` (dispatcher only reads it when
`turn_order` is non-empty and the index is kept in range). -/
def turn_holder (s : GameState) : Nat :=
  s.turn_order.getD s.current_turn_idx 0

/-- Function `next_turn()`: advance index mod player count, grant show-eligibility
to the new holder, and capture their open-discard memo. -/
def next_turn (s : GameState) : GameState :=
  if s.turn_order.isEmpty then s
  else
    let idx := (s.current_turn_idx + 1) % s.turn_order.length
    let pid := s.turn_order.getD idx 0
    let s1 := { s with current_turn_idx := idx,
                       show_available := updf s.show_available pid true }
    match s1.discard_pile.getLast? with
    | some top =>
      { s1 with turn_open_discard := (updf s1.turn_open_discard pid
          (some (s1.discard_pile.length - 1, top))) }
    | none =>
      { s1 with turn_open_discard := updf s1.turn_open_discard pid none }

/-- Python `prev_top[:-1] if prev_top and prev_top not in ("ZB","ZR") else prev_top`.
Also the formula for `joker_rank` at round start. -/
def prev_top_face : Option Card → Option String
  | none => none
  | some t => if t ≠ "" ∧ t ≠ "ZB" ∧ t ≠ "ZR" then some (t.dropRight 1) else some t

/-- The `action == "discard"` branch of the host main loop. -/
def handle_discard (s : GameState) (pid : Nat) (card : Card) : GameState :=
  if ¬ s.game_started then s
  else if s.turn_order.isEmpty then s
  else if pid = turn_holder s ∧ s.turn_phase pid = "discard" ∧ s.round_over = false
          ∧ card ∈ s.hands pid then
    let ptf := prev_top_face s.discard_pile.getLast?
    let face := cardFace card
    let removed := (s.hands pid).filter (fun c => decide (cardFace c = face))
    let kept := (s.hands pid).filter (fun c => decide (¬ cardFace c = face))
    let s1 := { s with
      hands := updf s.hands pid (sortCards s.joker_rank kept),
      discard_pile := s.discard_pile ++ removed,
      show_available := updf s.show_available pid false }
    if ptf = some face then
      next_turn { s1 with turn_phase := updf s1.turn_phase pid ("discard") }
    else
      { s1 with turn_phase := updf s1.turn_phase pid ("draw") }
  else s

/-- The `action == "draw_deck"` branch of the host main loop. -/
def handle_draw_deck (s : GameState) (pid : Nat) : GameState :=
  if ¬ s.game_started then s
  else if s.turn_order.isEmpty then s
  else if pid = turn_holder s ∧ s.turn_phase pid = "draw" ∧ s.round_over = false then
    match s.deck.getLast? with
    | none => s
    | some c =>
      next_turn { s with
        deck := s.deck.dropLast,
        hands := updf s.hands pid (sortCards s.joker_rank (s.hands pid ++ [c])),
        turn_phase := updf s.turn_phase pid ("discard"),
        show_available := updf s.show_available pid false }
  else s

/-- Index of the last occurrence of `c` (the `for j in reversed(range(...))`
scan of `take_open_discard_for_turn`). -/
def lastIdxOf (c : Card) : List Card → Option Nat
  | [] => none
  | x :: xs =>
    match lastIdxOf c xs with
    | some j => some (j + 1)
    | none => if x = c then some 0 else none

/-- Function `take_open_discard_for_turn(pid)`: returns the popped card and the pile
after the pop (`none` when the pile is empty). -/
def take_open_discard_for_turn (pile : List Card) (memo : Option (Nat × Card)) :
    Option (Card × List Card) :=
  match pile.getLast? with
  | none => none
  | some top =>
    match memo with
    | some (idx, refCard) =>
      if idx < pile.length ∧ pile.getD idx ("") = refCard then
        some (pile.getD idx (""), pile.eraseIdx idx)
      else
        match lastIdxOf refCard pile with
        | some j => some (refCard, pile.eraseIdx j)
        | none => some (top, pile.dropLast)
    | none => some (top, pile.dropLast)

/-- The `action == "draw_discard"` branch of the host main loop. -/
def handle_draw_discard (s : GameState) (pid : Nat) : GameState :=
  if ¬ s.game_started then s
  else if s.turn_order.isEmpty then s
  else if pid = turn_holder s ∧ s.turn_phase pid = "draw" ∧ s.round_over = false then
    if s.discard_pile.isEmpty then s
    else
      let res := take_open_discard_for_turn s.discard_pile (s.turn_open_discard pid)
      let newHand := match res with
        | some (c, _) => s.hands pid ++ [c]
        | none => s.hands pid
      let newPile := match res with
        | some (_, p) => p
        | none => s.discard_pile
      next_turn { s with
        discard_pile := newPile,
        hands := updf s.hands pid (sortCards s.joker_rank newHand),
        turn_phase := updf s.turn_phase pid ("discard"),
        show_available := updf s.show_available pid false }
  else s

def SHOW_LIMIT : Int := 8

def SHOW_PENALTY : Int := 40

/-- Successive `dict` key insertions (`scores_total[pid] = ...` may add keys). -/
def insert_keys (keys : List Nat) : List Nat → List Nat
  | [] => keys
  | k :: ks => insert_keys (if k ∈ keys then keys else keys ++ [k]) ks

/-- Python `scores_total[pid] = int(scores_total.get(pid, 0)) + int(pts)` over the
keys of `round_points` (a dict visits each key once). -/
def upd_scores (keys : List Nat) (f : Nat → Int) (rpKeys : List Nat) (rp : Nat → Int) :
    Nat → Int :=
  fun pid => if pid ∈ rpKeys then (if pid ∈ keys then f pid else 0) + rp pid else f pid

/-- Shared tail of `resolve_show` after the round points are fixed: add them
to cumulative scores, run the elimination pass, record summary/history, mark
the round over, and end the match if a single active player remains. -/
def finish_show (s : GameState) (show_pid : Nat) (show_total : Int) (rp : Nat → Int)
    (rpKeys : List Nat) (outcome : String) (same_or_less min_players : List Nat) :
    GameState :=
  let keys' := insert_keys s.scores_keys rpKeys
  let scores' := upd_scores s.scores_keys s.scores_total rpKeys rp
  let newly_out := keys'.filter
    (fun pid => decide (s.eliminated pid = false ∧ s.max_points_out < scores' pid))
  let elim' : Nat → Bool :=
    fun pid => s.eliminated pid || decide (pid ∈ keys' ∧ s.max_points_out < scores' pid)
  let rpList := (insert_keys [] rpKeys).map (fun p => (p, rp p))
  let summ : RoundSummary :=
    { round_no := s.round_no, joker_card := s.joker_card, joker_rank := s.joker_rank,
      show_pid := show_pid, show_total := show_total, round_points := rpList,
      outcome := outcome, same_or_less_players := same_or_less,
      min_players := min_players, newly_out := newly_out }
  let entry : RoundEntry :=
    { round_no := s.round_no, round_points := rpList, show_pid := show_pid,
      outcome := outcome }
  let s1 := { s with
    scores_keys := keys', scores_total := scores', eliminated := elim',
    last_round_summary := some summ, round_history := s.round_history ++ [entry],
    round_over := true }
  let remaining := (keys'.insertionSort (fun a b => a ≤ b)).filter
    (fun pid => elim' pid = false)
  if remaining.length = 1 then
    { s1 with match_over := true, match_winner := remaining.head?,
              match_end_reason := some ("points"), game_started := false }
  else s1

/-- Function `resolve_show(show_pid)`. -/
def resolve_show (s : GameState) (show_pid : Nat) : GameState :=
  if s.round_over = true then s
  else if ¬ show_pid ∈ s.turn_order then s
  else
    let totals : Nat → Int := fun pid => hand_total s pid
    let show_total : Int := if show_pid ∈ s.turn_order then totals show_pid else 999
    if SHOW_LIMIT < show_total then s
    else
      let others := s.turn_order.filter (fun pid => decide (¬ pid = show_pid))
      let same_or_less := others.filter (fun pid => decide (totals pid ≤ show_total))
      if same_or_less.isEmpty then
        finish_show s show_pid show_total
          (fun pid => if pid = show_pid then 0 else totals pid)
          (show_pid :: others) "win" same_or_less []
      else
        let min_other := ((others.map totals).min?).getD show_total
        let min_players := others.filter (fun pid => decide (totals pid = min_other))
        finish_show s show_pid show_total
          (fun pid => if pid = show_pid then SHOW_PENALTY
                      else if totals pid = min_other then 0 else totals pid)
          (show_pid :: others) "penalty" same_or_less min_players

/-- The `action == "show"` branch of the host main loop (dispatch guards plus
`resolve_show`). -/
def handle_show (s : GameState) (pid : Nat) : GameState :=
  if ¬ s.game_started then s
  else if s.turn_order.isEmpty then s
  else if pid = turn_holder s ∧ s.turn_phase pid = "discard"
          ∧ s.show_available pid = true ∧ s.round_over = false then
    resolve_show s pid
  else s

/-- Python `values = [str(v) for v in range(2, 11)] + ["J","Q","K","A"]`. -/
def deck_values : List String := (List.range' 2 9).map toString ++ ["J", "Q", "K", "A"]

def deck_suits : List String := ["S", "C", "D", "H"]

/-- One 54-card copy: `[f"{v}{s}" ...] + ["ZB", "ZR"]`. -/
def single_deck : List Card :=
  (deck_values.flatMap (fun v => deck_suits.map (fun su => v ++ su))) ++ ["ZB", "ZR"]

/-- Python `single * max(1, int(num_decks))` before the shuffle. -/
def build_deck_pool (num_decks : Nat) : List Card :=
  (List.replicate (max 1 num_decks) single_deck).flatten

/-- Function `build_deck`: `random.shuffle` is modelled by an arbitrary
permutation-producing function supplied by the environment. -/
def build_deck (shuffle : List Card → List Card) (num_decks : Nat) : List Card :=
  shuffle (build_deck_pool num_decks)

/-- Function `num_decks_for_players`. -/
def num_decks_for_players (n_players : Nat) : Nat :=
  if n_players < 5 then 2 else if n_players ≤ 6 then 3 else 4

def HAND_SIZE : Nat := 7

/-- Python `[deck.pop() for _ in range(n)]`: the `n` cards popped off the end, in
pop order, together with the remaining deck.  (Equals the Python behaviour
whenever the deck holds at least `n` cards; a fresh round deck always does.) -/
def deal_n (d : List Card) (n : Nat) : List Card × List Card :=
  ((d.drop (d.length - n)).reverse, d.take (d.length - n))

/-- The dealing loop of `start_round`: `hands[pid] = [deck.pop() ...]` then
`sort_hand(pid)` for each pid in turn order. -/
def deal_hands (jokerRank : Option String) :
    List Nat → (Nat → List Card) → List Card → (Nat → List Card) × List Card
  | [], hands, d => (hands, d)
  | pid :: rest, hands, d =>
    let dealt := deal_n d HAND_SIZE
    deal_hands jokerRank rest (updf hands pid (sortCards jokerRank dealt.1)) dealt.2

/-- The bounded dealer-rotation loop of `start_round` (runs at most
`len(player_order) + 1` times; the dealer is unchanged if no active
candidate is found). -/
def dealer_search (player_order active_in_order : List Nat) (dealer0 : Nat) :
    Nat → Nat → Nat
  | 0, _ => dealer0
  | fuel + 1, cur =>
    let idx := if cur ∈ player_order then
        (player_order.indexOf cur + 1) % player_order.length
      else 0
    let cand := player_order.getD idx 0
    if cand ∈ active_in_order then cand
    else dealer_search player_order active_in_order dealer0 fuel cand

/-- The card-handling tail of `start_round()` once the turn order and the
shuffled deck are fixed: pop the designated joker, deal `HAND_SIZE` cards to
each player in turn order, seed the discard pile, and initialise the turn
state. -/
def start_round_deal (s0 : GameState) (turn_order : List Nat) (deck0 : List Card) :
    GameState :=
  let joker_card := deck0.getLast?
  let deck1 := deck0.dropLast
  let joker_rank := prev_top_face joker_card
  let dealt := deal_hands joker_rank turn_order s0.hands deck1
  let seeded : List Card × List Card :=
    match dealt.2.getLast? with
    | some c => ([c], dealt.2.dropLast)
    | none => ([], dealt.2)
  let tod : Nat → Option (Nat × Card) :=
    match turn_order.head?, seeded.1.getLast? with
    | some p0, some top =>
      updf (fun _ => none) p0 (some (seeded.1.length - 1, top))
    | _, _ => fun _ => none
  { s0 with
    deck := seeded.2, discard_pile := seeded.1, turn_order := turn_order,
    current_turn_idx := 0,
    turn_phase := fun _ => "discard",
    show_available := fun pid => decide (turn_order.head? = some pid),
    turn_open_discard := tod,
    joker_card := joker_card, joker_rank := joker_rank,
    hands := dealt.1 }

/-- Function `start_round()` (the state-machine part; network sends are effect-free
here).  `shuffle` stands for `random.shuffle` and is constrained to a
permutation in the theorems. -/
def start_round (shuffle : List Card → List Card) (s : GameState) : GameState :=
  let s0 := { s with last_round_summary := none, round_over := false,
                     round_no := s.round_no + 1,
                     turn_open_discard := (fun _ => none : Nat → Option (Nat × Card)) }
  let active_in_order := s0.player_order.filter
    (fun pid => decide (pid ∈ s0.scores_keys ∧ s0.eliminated pid = false))
  if active_in_order.isEmpty then s0
  else
    let dealer :=
      if s0.round_no = 1 then
        (if s0.dealer_pid ∈ active_in_order then s0.dealer_pid
         else active_in_order.getD 0 0)
      else
        dealer_search s0.player_order active_in_order s0.dealer_pid
          (s0.player_order.length + 1) s0.dealer_pid
    let turn_order :=
      if dealer ∈ active_in_order then
        let di := active_in_order.indexOf dealer
        active_in_order.drop (di + 1) ++ active_in_order.take (di + 1)
      else active_in_order
    start_round_deal { s0 with dealer_pid := dealer } turn_order
      (build_deck shuffle (num_decks_for_players turn_order.length))

/-- One validated in-round card action (the three handlers C8 ranges over). -/
inductive RoundStep : GameState → GameState → Prop
  | discard (s : GameState) (pid : Nat) (card : Card) :
      RoundStep s (handle_discard s pid card)
  | draw_deck (s : GameState) (pid : Nat) : RoundStep s (handle_draw_deck s pid)
  | draw_discard (s : GameState) (pid : Nat) : RoundStep s (handle_draw_discard s pid)

/-- States reachable within the round. -/
def Reachable : GameState → GameState → Prop := Relation.ReflTransGen RoundStep

/-- Multiset of the hands of the players in `tord`. -/
def hands_sum (tord : List Nat) (f : Nat → List Card) : Multiset Card :=
  (tord.map (fun q => ((f q : List Card) : Multiset Card))).sum

/-- Multiset of cards in the active players' hands. -/
def hands_multiset (s : GameState) : Multiset Card :=
  hands_sum s.turn_order s.hands

/-- All cards accounted for by the round: shoe, discard pile, active hands
and the designated joker. -/
def card_multiset (s : GameState) : Multiset Card :=
  (s.deck : Multiset Card) + (s.discard_pile : Multiset Card) + hands_multiset s
    + ((s.joker_card.toList : List Card) : Multiset Card)

/-- Invariant carried through a round: distinct players in the turn order,
the turn index in range, and the full card multiset intact. -/
def RoundInv (pool : Multiset Card) (s : GameState) : Prop :=
  s.turn_order.Nodup ∧ s.current_turn_idx < s.turn_order.length
    ∧ card_multiset s = pool

/-- A neutral concrete state used to build the explicit test states of the
theorems below. -/
def baseState : GameState := {
  hands := fun _ => [], discard_pile := [], deck := [],
  turn_order := [], current_turn_idx := 0,
  turn_phase := fun _ => "discard", show_available := fun _ => false,
  turn_open_discard := fun _ => none,
  scores_keys := [], scores_total := fun _ => 0,
  eliminated := fun _ => false, round_over := false, round_no := 1,
  joker_card := none, joker_rank := none,
  round_history := [], last_round_summary := none, max_points_out := 200,
  match_over := false, match_winner := none, match_end_reason := none,
  game_started := true, player_order := [], dealer_pid := 1 }

/-- Counterexample state for C4: a solo turn order and a chaining discard
(`"9S"` onto top card `"9H"`). -/
def cexC4 : GameState := { baseState with
  turn_order := [1], scores_keys := [1], player_order := [1],
  hands := fun p => if p = 1 then ["9S", "3H"] else [],
  discard_pile := ["9H"] }
/-- Witness state for the amended C4: two players, caller 1 discards `"7S"`
holding two sevens. -/
def wC4 : GameState := { baseState with
  turn_order := [1, 2], scores_keys := [1, 2], player_order := [1, 2],
  hands := fun p => if p = 1 then ["7S", "7H", "2C"] else if p = 2 then ["5D"] else [],
  discard_pile := ["KD"] }
/-- Counterexample state for C5: both joker tokens are in play, `"ZB"` is
the pile top and the caller discards `"ZR"`. -/
def cexC5 : GameState := { baseState with
  turn_order := [1, 2], scores_keys := [1, 2], player_order := [1, 2],
  hands := fun p => if p = 1 then ["ZR", "3H"] else if p = 2 then ["5D"] else [],
  discard_pile := ["9H", "ZB"] }
/-- Witness state for the amended C5: pile top `"7H"`, caller discards
`"7S"`. -/
def wC5 : GameState := { baseState with
  turn_order := [1, 2], scores_keys := [1, 2], player_order := [1, 2],
  hands := fun p => if p = 1 then ["7S", "2C"] else if p = 2 then ["5D"] else [],
  discard_pile := ["KD", "7H"] }
/-- Counterexample state for C6: the caller's turn began with `"9H"` open
(memo recorded at index 0) and they discard the non-matching `"3C"`. -/
def cexC6 : GameState := { baseState with
  turn_order := [1, 2], scores_keys := [1, 2], player_order := [1, 2],
  hands := fun p => if p = 1 then ["3C", "2S"] else if p = 2 then ["5D"] else [],
  discard_pile := ["9H"],
  turn_open_discard := fun p => if p = 1 then some (0, "9H") else none }
/-- Witness state for the amended C6: memo `"9H"` at index 0, caller
discards the non-matching `"3C"`, then draws from the discard. -/
def wC6 : GameState := { baseState with
  turn_order := [1, 2], scores_keys := [1, 2], player_order := [1, 2],
  hands := fun p => if p = 1 then ["3C", "2S"] else if p = 2 then ["5D"] else [],
  discard_pile := ["9H"],
  turn_open_discard := fun p => if p = 1 then some (0, "9H") else none }
/-- Witness state for C7: exactly the spec's memo example — the caller's
turn began with `"9H"` open; they have discarded `"3C"` onto it, so the
pile is `["9H", "3C"]` with their own card on top; phase is now `"draw"`. -/
def wC7 : GameState := { baseState with
  turn_order := [1, 2], scores_keys := [1, 2], player_order := [1, 2],
  hands := fun p => if p = 1 then ["2S"] else if p = 2 then ["5D"] else [],
  discard_pile := ["9H", "3C"],
  turn_phase := fun p => if p = 1 then ("draw") else ("discard"),
  turn_open_discard := fun p => if p = 1 then some (0, "9H") else none }
/-- Witness state for C1: the spec's worked penalty example — totals are
player 1: 5, player 2: 5, player 3: 9; player 1 declares show. -/
def wC1 : GameState := { baseState with
  turn_order := [1, 2, 3], scores_keys := [1, 2, 3], player_order := [1, 2, 3],
  hands := fun p => if p = 1 then ["2S", "3H"] else if p = 2 then ["2H", "3C"]
    else if p = 3 then ["4S", "5D"] else [],
  discard_pile := ["9H", "KD"], deck := ["AS", "7C"],
  show_available := fun p => p = 1,
  joker_card := some ("QS"), joker_rank := some ("Q") }
/-- Witness state for C2: the round is already over. -/
def wC2 : GameState := { baseState with
  turn_order := [1, 2], scores_keys := [1, 2], player_order := [1, 2],
  round_over := true }
/-- Witness state for C3: player 2's cumulative score lands exactly on the
limit (200) while player 3 exceeds it. -/
def wC3 : GameState := { baseState with
  turn_order := [1, 2, 3], scores_keys := [1, 2, 3], player_order := [1, 2, 3],
  hands := fun p => if p = 1 then ["2S", "3H"] else if p = 2 then ["2H", "3C"]
    else if p = 3 then ["4S", "5D"] else [],
  scores_total := fun p => if p = 2 then 200 else if p = 3 then 195 else 0,
  discard_pile := ["KD"], deck := ["AS"] }
/-- Witness state for C10: caller 1 holds both joker tokens. -/
def wC10 : GameState := { baseState with
  turn_order := [1, 2], scores_keys := [1, 2], player_order := [1, 2],
  hands := fun p => if p = 1 then ["ZB", "ZR", "2S"] else if p = 2 then ["5D"] else [],
  discard_pile := ["KD"] }
/-- Witness state for C8: a three-player lobby about to start round 1. -/
def wC8 : GameState := { baseState with
  round_no := 0, scores_keys := [1, 2, 3], player_order := [1, 2, 3] }

/-! Section Helper lemmas -/

theorem sortCards_perm (jokerRank : Option String) (l : List Card) :
    (sortCards jokerRank l).Perm l :=
  List.perm_insertionSort _ l

theorem next_turn_hands (s : GameState) : (next_turn s).hands = s.hands := by
  unfold next_turn
  split
  · rfl
  · dsimp only
    cases s.discard_pile.getLast? <;> rfl

theorem next_turn_discard_pile (s : GameState) :
    (next_turn s).discard_pile = s.discard_pile := by
  unfold next_turn
  split
  · rfl
  · dsimp only
    cases s.discard_pile.getLast? <;> rfl

theorem next_turn_deck (s : GameState) : (next_turn s).deck = s.deck := by
  unfold next_turn
  split
  · rfl
  · dsimp only
    cases s.discard_pile.getLast? <;> rfl

theorem next_turn_turn_order (s : GameState) :
    (next_turn s).turn_order = s.turn_order := by
  unfold next_turn
  split
  · rfl
  · dsimp only
    cases s.discard_pile.getLast? <;> rfl

theorem next_turn_turn_phase (s : GameState) :
    (next_turn s).turn_phase = s.turn_phase := by
  unfold next_turn
  split
  · rfl
  · dsimp only
    cases s.discard_pile.getLast? <;> rfl

theorem next_turn_joker_card (s : GameState) :
    (next_turn s).joker_card = s.joker_card := by
  unfold next_turn
  split
  · rfl
  · dsimp only
    cases s.discard_pile.getLast? <;> rfl

theorem next_turn_current_turn_idx (s : GameState) (h : s.turn_order ≠ []) :
    (next_turn s).current_turn_idx = (s.current_turn_idx + 1) % s.turn_order.length := by
  unfold next_turn
  rw [if_neg (by simpa using h)]
  dsimp only
  cases s.discard_pile.getLast? <;> rfl

theorem next_turn_show_available (s : GameState) (h : s.turn_order ≠ []) :
    (next_turn s).show_available = updf s.show_available
      (s.turn_order.getD ((s.current_turn_idx + 1) % s.turn_order.length) 0) true := by
  unfold next_turn
  rw [if_neg (by simpa using h)]
  dsimp only
  cases s.discard_pile.getLast? <;> rfl

theorem pyInt_toString (n : Nat) (h2 : 2 ≤ n) (h10 : n ≤ 10) :
    pyInt (toString n) = some (n : Int) := by
  interval_cases n <;> decide

theorem handle_discard_hands_eq (s : GameState) (pid : Nat) (card : Card)
    (hg : s.game_started = true) (hne : s.turn_order ≠ [])
    (hturn : pid = turn_holder s) (hph : s.turn_phase pid = "discard")
    (hro : s.round_over = false) (hin : card ∈ s.hands pid) :
    (handle_discard s pid card).hands pid
      = sortCards s.joker_rank
          ((s.hands pid).filter (fun c => decide (¬ cardFace c = cardFace card))) := by
  unfold handle_discard
  rw [if_neg (by simp [hg]), if_neg (by simpa using hne),
      if_pos ⟨hturn, hph, hro, hin⟩]
  dsimp only
  split
  · rw [next_turn_hands]
    simp [updf]
  · simp [updf]

theorem handle_discard_pile_eq (s : GameState) (pid : Nat) (card : Card)
    (hg : s.game_started = true) (hne : s.turn_order ≠ [])
    (hturn : pid = turn_holder s) (hph : s.turn_phase pid = "discard")
    (hro : s.round_over = false) (hin : card ∈ s.hands pid) :
    (handle_discard s pid card).discard_pile
      = s.discard_pile
          ++ (s.hands pid).filter (fun c => decide (cardFace c = cardFace card)) := by
  unfold handle_discard
  rw [if_neg (by simp [hg]), if_neg (by simpa using hne),
      if_pos ⟨hturn, hph, hro, hin⟩]
  dsimp only
  split
  · rw [next_turn_discard_pile]
  · rfl

/-! Section C9 -/

/-- C9: for every card token and joker rank, `card_points` returns 0 on the
joker tokens `ZB`/`ZR` and on any card whose face equals the designated
joker rank; otherwise 1 on face `A`; 10 on faces `J`, `Q`, `K`; the literal
numeric value on faces `2`–`10`; and the defensive 0 on any face that is
none of those and fails integer parsing.  `hand_total` is the sum of
`card_points` over the hand. -/
theorem card_points_spec (jr : Option String) (card : Card) :
    ((card = "ZB" ∨ card = "ZR" ∨ some (cardFace card) = jr) →
        card_points jr card = 0)
    ∧ (¬ (card = "ZB" ∨ card = "ZR" ∨ some (cardFace card) = jr) →
        ((cardFace card = "A" → card_points jr card = 1)
        ∧ ((cardFace card = "J" ∨ cardFace card = "Q" ∨ cardFace card = "K") →
            card_points jr card = 10)
        ∧ (∀ n : Nat, 2 ≤ n → n ≤ 10 → cardFace card = toString n →
            card_points jr card = n)
        ∧ ((cardFace card ≠ "A"
            ∧ ¬ (cardFace card = "J" ∨ cardFace card = "Q" ∨ cardFace card = "K")
            ∧ pyInt (cardFace card) = none) → card_points jr card = 0)))
    ∧ (∀ (s : GameState) (pid : Nat),
        hand_total s pid = ((s.hands pid).map (card_points s.joker_rank)).sum) := by
  refine ⟨?_, ?_, fun s pid => rfl⟩
  · intro h
    unfold card_points
    rw [if_pos (by tauto)]
  · intro h
    have hnot : ¬ (some (cardFace card) = jr ∨ card = "ZB" ∨ card = "ZR") := by tauto
    refine ⟨?_, ?_, ?_, ?_⟩
    · intro hA
      unfold card_points
      rw [if_neg hnot, if_pos hA]
    · intro hJQK
      unfold card_points
      rw [if_neg hnot]
      have hA : ¬ cardFace card = "A" := by
        rcases hJQK with h1 | h1 | h1 <;> simp [h1]
      rw [if_neg hA, if_pos hJQK]
    · intro n h2 h10 hface
      have hA : ¬ cardFace card = "A" := by
        rw [hface]; interval_cases n <;> decide
      have hJQK : ¬ (cardFace card = "J" ∨ cardFace card = "Q" ∨ cardFace card = "K") := by
        rw [hface]; interval_cases n <;> decide
      unfold card_points
      rw [if_neg hnot, if_neg hA, if_neg hJQK, hface, pyInt_toString n h2 h10]
      rfl
    · rintro ⟨hA, hJQK, hparse⟩
      unfold card_points
      rw [if_neg hnot, if_neg hA, if_neg hJQK, hparse]
      rfl

/-! Section C10 -/

/-- C10: the grouped-discard face comparison drops the last character of a
two-character token, so both joker tokens `ZB` and `ZR` share the face
`"Z"`; a valid discard of a joker token therefore removes every `ZB` and
every `ZR` from the caller's hand and appends all of them to the discard
pile. -/
theorem joker_grouped_discard (s : GameState) (pid : Nat) (card : Card)
    (hcard : card = "ZB" ∨ card = "ZR")
    (hg : s.game_started = true) (hne : s.turn_order ≠ [])
    (hturn : pid = turn_holder s) (hph : s.turn_phase pid = "discard")
    (hro : s.round_over = false) (hin : card ∈ s.hands pid) :
    cardFace ("ZB") = "Z" ∧ cardFace ("ZR") = "Z"
    ∧ "ZB" ∉ (handle_discard s pid card).hands pid
    ∧ "ZR" ∉ (handle_discard s pid card).hands pid
    ∧ (handle_discard s pid card).discard_pile.count ("ZB")
        = s.discard_pile.count ("ZB") + ((s.hands pid).count ("ZB"))
    ∧ (handle_discard s pid card).discard_pile.count ("ZR")
        = s.discard_pile.count ("ZR") + ((s.hands pid).count ("ZR")) := by
  have hface : cardFace card = "Z" := by rcases hcard with h | h <;> subst h <;> decide
  have hZB : cardFace ("ZB") = "Z" := by decide
  have hZR : cardFace ("ZR") = "Z" := by decide
  have hhands := handle_discard_hands_eq s pid card hg hne hturn hph hro hin
  have hpile := handle_discard_pile_eq s pid card hg hne hturn hph hro hin
  refine ⟨hZB, hZR, ?_, ?_, ?_, ?_⟩
  · intro hmem
    rw [hhands] at hmem
    have hm := (sortCards_perm s.joker_rank _).mem_iff.mp hmem
    have h2 := (List.mem_filter.mp hm).2
    simp [hface, hZB] at h2
  · intro hmem
    rw [hhands] at hmem
    have hm := (sortCards_perm s.joker_rank _).mem_iff.mp hmem
    have h2 := (List.mem_filter.mp hm).2
    simp [hface, hZR] at h2
  · rw [hpile, List.count_append, List.count_filter (by simp [hZB, hface])]
  · rw [hpile, List.count_append, List.count_filter (by simp [hZR, hface])]

theorem getD_of_lt {α : Type} (l : List α) (i : Nat) (d : α) (h : i < l.length) :
    l.getD i d = l[i] := by
  rw [List.getD_eq_getElem?_getD, List.getElem?_eq_getElem h]
  rfl

/-- After a valid discard, the caller's eligibility flag ends up false
except in the degenerate chain case with a single-player turn order (the
turn then comes straight back to the caller and `next_turn` re-grants it). -/
theorem handle_discard_show_available (s : GameState) (pid : Nat) (card : Card)
    (hg : s.game_started = true) (hne : s.turn_order ≠ [])
    (hnd : s.turn_order.Nodup) (hidx : s.current_turn_idx < s.turn_order.length)
    (hturn : pid = turn_holder s) (hph : s.turn_phase pid = "discard")
    (hro : s.round_over = false) (hin : card ∈ s.hands pid) :
    ((handle_discard s pid card).show_available pid = false
      ↔ ¬ (prev_top_face s.discard_pile.getLast? = some (cardFace card)
            ∧ s.turn_order.length = 1)) := by
  unfold handle_discard
  rw [if_neg (by simp [hg]), if_neg (by simpa using hne),
      if_pos ⟨hturn, hph, hro, hin⟩]
  dsimp only
  split
  · rename_i hchain
    set s2 : GameState := { s with
      hands := updf s.hands pid (sortCards s.joker_rank
        ((s.hands pid).filter (fun c => decide (¬ cardFace c = cardFace card)))),
      discard_pile := s.discard_pile
        ++ (s.hands pid).filter (fun c => decide (cardFace c = cardFace card)),
      show_available := updf s.show_available pid false,
      turn_phase := updf s.turn_phase pid ("discard") } with hs2
    have hne2 : s2.turn_order ≠ [] := hne
    rw [next_turn_show_available s2 hne2]
    have hlen2 : s2.turn_order.length = s.turn_order.length := rfl
    have hj : (s2.current_turn_idx + 1) % s2.turn_order.length < s.turn_order.length := by
      rw [hlen2]
      exact Nat.mod_lt _ (Nat.pos_of_ne_zero (by simpa using
        (fun he => hne (List.length_eq_zero.mp he))))
    constructor
    · intro hval
      rintro ⟨-, h1⟩
      have hj0 : (s2.current_turn_idx + 1) % s2.turn_order.length = 0 := by
        have hlone : s2.turn_order.length = 1 := h1
        rw [hlone]
        omega
      have hidx0 : s.current_turn_idx = 0 := by omega
      have : s2.turn_order.getD ((s2.current_turn_idx + 1) % s2.turn_order.length) 0
          = pid := by
        rw [hj0]
        show s.turn_order.getD 0 0 = pid
        rw [hturn]
        unfold turn_holder
        rw [hidx0]
      simp only [updf] at hval
      rw [if_pos this.symm] at hval
      cases hval
    · intro hpost
      have hlen1 : s.turn_order.length ≠ 1 := fun h1 => hpost ⟨hchain, h1⟩
      have hpidne : pid ≠ s2.turn_order.getD ((s2.current_turn_idx + 1) % s2.turn_order.length) 0 := by
        intro hpe
        have hgj : s2.turn_order.getD ((s2.current_turn_idx + 1) % s2.turn_order.length) 0
            = s.turn_order[(s.current_turn_idx + 1) % s.turn_order.length] := by
          exact getD_of_lt _ _ _ hj
        have hgi : pid = s.turn_order[s.current_turn_idx] := by
          rw [hturn]
          unfold turn_holder
          exact getD_of_lt _ _ _ hidx
        rw [hgi, hgj] at hpe
        have := (List.Nodup.getElem_inj_iff hnd).mp hpe
        rcases Nat.lt_or_ge (s.current_turn_idx + 1) s.turn_order.length with hlt | hge
        · rw [Nat.mod_eq_of_lt hlt] at this
          omega
        · have heq : s.current_turn_idx + 1 = s.turn_order.length := by omega
          rw [heq, Nat.mod_self] at this
          omega
      simp only [updf]
      rw [if_neg hpidne]
      simp
  · rename_i hchain
    constructor
    · intro _
      rintro ⟨h1, -⟩
      exact hchain h1
    · intro _
      show updf s.show_available pid false pid = false
      simp [updf]

/-! Section C4 -/

/-- C4 counterexample: at this valid discard (caller is the turn holder,
phase `AwaitingDiscard`, round not over, card in hand) the caller's final
show-eligibility flag is `true`, not cleared: the discard chains and the
single-player turn order hands the turn straight back to the caller, whose
eligibility `next_turn` re-grants.  This refutes the claim's unconditional
clause that show-eligibility is cleared. -/
theorem discard_eligibility_cex :
    cexC4.game_started = true ∧ cexC4.turn_order ≠ [] ∧ 1 = turn_holder cexC4
    ∧ cexC4.turn_phase 1 = "discard" ∧ cexC4.round_over = false
    ∧ "9S" ∈ cexC4.hands 1
    ∧ (handle_discard cexC4 1 "9S").show_available 1 = true := by decide

/-- C4 (amended): for every valid discard, every hand card of the discarded
face moves to the discard pile in hand order and the other cards remain in
the hand; the caller's show-eligibility ends up cleared **unless** the
discard chains and the caller is the only player in the turn order, in
which case the turn returns to the caller and eligibility is re-granted. -/
theorem discard_grouped_by_face (s : GameState) (pid : Nat) (card : Card)
    (hg : s.game_started = true) (hne : s.turn_order ≠ [])
    (hnd : s.turn_order.Nodup) (hidx : s.current_turn_idx < s.turn_order.length)
    (hturn : pid = turn_holder s) (hph : s.turn_phase pid = "discard")
    (hro : s.round_over = false) (hin : card ∈ s.hands pid) :
    ((handle_discard s pid card).hands pid).Perm
        ((s.hands pid).filter (fun c => decide (¬ cardFace c = cardFace card)))
    ∧ (handle_discard s pid card).discard_pile
        = s.discard_pile
          ++ (s.hands pid).filter (fun c => decide (cardFace c = cardFace card))
    ∧ ((handle_discard s pid card).show_available pid = false
        ↔ ¬ (prev_top_face s.discard_pile.getLast? = some (cardFace card)
              ∧ s.turn_order.length = 1)) := by
  refine ⟨?_, handle_discard_pile_eq s pid card hg hne hturn hph hro hin,
    handle_discard_show_available s pid card hg hne hnd hidx hturn hph hro hin⟩
  rw [handle_discard_hands_eq s pid card hg hne hturn hph hro hin]
  exact sortCards_perm _ _

theorem discard_grouped_by_face_witness :
    (wC4.game_started = true ∧ wC4.turn_order ≠ [] ∧ wC4.turn_order.Nodup
      ∧ wC4.current_turn_idx < wC4.turn_order.length ∧ 1 = turn_holder wC4
      ∧ wC4.turn_phase 1 = "discard" ∧ wC4.round_over = false ∧ "7S" ∈ wC4.hands 1)
    ∧ (((handle_discard wC4 1 "7S").hands 1).Perm
          ((wC4.hands 1).filter (fun c => decide (¬ cardFace c = cardFace ("7S"))))
      ∧ (handle_discard wC4 1 "7S").discard_pile
          = wC4.discard_pile
            ++ (wC4.hands 1).filter (fun c => decide (cardFace c = cardFace ("7S")))
      ∧ ((handle_discard wC4 1 "7S").show_available 1 = false
          ↔ ¬ (prev_top_face wC4.discard_pile.getLast? = some (cardFace ("7S"))
                ∧ wC4.turn_order.length = 1))) :=
  ⟨by decide,
   discard_grouped_by_face wC4 1 "7S" (by decide) (by decide) (by decide)
     (by decide) (by decide) (by decide) (by decide) (by decide)⟩

/-! Section C5 -/

/-- C5 counterexample: the discarded card's face equals the previous
discard-top's face (both joker tokens reduce to face `"Z"`), yet the code
puts the caller into the `AwaitingDraw` (`"draw"`) phase and does not
advance the turn: the host compares the hand card's face (`"Z"`) against
the raw joker token (`"ZB"`) for the pile top, so a discard never chains
onto a joker top.  This refutes the claim as stated. -/
theorem discard_chain_joker_cex :
    cardFace ("ZR") = cardFace ("ZB")
    ∧ cexC5.game_started = true ∧ cexC5.turn_order ≠ [] ∧ 1 = turn_holder cexC5
    ∧ cexC5.turn_phase 1 = "discard" ∧ cexC5.round_over = false
    ∧ "ZR" ∈ cexC5.hands 1
    ∧ cexC5.discard_pile.getLast? = some ("ZB")
    ∧ (handle_discard cexC5 1 "ZR").turn_phase 1 = "draw"
    ∧ (handle_discard cexC5 1 "ZR").current_turn_idx = cexC5.current_turn_idx := by
  decide

/-- C5 (amended): for every valid discard whose face equals the previous
discard-top's face *as the host computes it* — the pile top is compared as
the raw token when it is a joker (`"ZB"`/`"ZR"`), so only non-joker tops
can match — no player's phase becomes `AwaitingDraw` (the caller's phase
stays `"discard"`) and the turn advances immediately to the next player. -/
theorem discard_chain_exception (s : GameState) (pid : Nat) (card : Card)
    (hg : s.game_started = true) (hne : s.turn_order ≠ [])
    (hturn : pid = turn_holder s) (hph : s.turn_phase pid = "discard")
    (hro : s.round_over = false) (hin : card ∈ s.hands pid)
    (hchain : prev_top_face s.discard_pile.getLast? = some (cardFace card)) :
    (handle_discard s pid card).turn_phase = updf s.turn_phase pid ("discard")
    ∧ (handle_discard s pid card).current_turn_idx
        = (s.current_turn_idx + 1) % s.turn_order.length := by
  unfold handle_discard
  rw [if_neg (by simp [hg]), if_neg (by simpa using hne),
      if_pos ⟨hturn, hph, hro, hin⟩]
  dsimp only
  rw [if_pos hchain]
  constructor
  · rw [next_turn_turn_phase]
  · exact next_turn_current_turn_idx _ hne

theorem discard_chain_exception_witness :
    (wC5.game_started = true ∧ wC5.turn_order ≠ [] ∧ 1 = turn_holder wC5
      ∧ wC5.turn_phase 1 = "discard" ∧ wC5.round_over = false
      ∧ "7S" ∈ wC5.hands 1
      ∧ prev_top_face wC5.discard_pile.getLast? = some (cardFace ("7S")))
    ∧ ((handle_discard wC5 1 "7S").turn_phase = updf wC5.turn_phase 1 "discard"
      ∧ (handle_discard wC5 1 "7S").current_turn_idx
          = (wC5.current_turn_idx + 1) % wC5.turn_order.length) :=
  ⟨by decide,
   discard_chain_exception wC5 1 "7S" (by decide) (by decide) (by decide)
     (by decide) (by decide) (by decide) (by decide)⟩

/-! Section C7 helpers -/

theorem lastIdxOf_eq_none (c : Card) :
    ∀ l : List Card, lastIdxOf c l = none → c ∉ l := by
  intro l
  induction l with
  | nil => intro _ h; cases h
  | cons x xs ih =>
    intro h hmem
    unfold lastIdxOf at h
    cases hx : lastIdxOf c xs with
    | some _ => rw [hx] at h; cases h
    | none =>
      rw [hx] at h
      by_cases hxc : x = c
      · rw [if_pos hxc] at h; cases h
      · rw [if_neg hxc] at h
        rcases List.mem_cons.mp hmem with h' | h'
        · exact hxc h'.symm
        · exact ih hx h'

theorem lastIdxOf_spec (c : Card) :
    ∀ (l : List Card) (j : Nat), lastIdxOf c l = some j →
      j < l.length ∧ l.getD j ("") = c
        ∧ ∀ k, j < k → k < l.length → l.getD k ("") ≠ c := by
  intro l
  induction l with
  | nil => intro j h; cases h
  | cons x xs ih =>
    intro j h
    unfold lastIdxOf at h
    cases hx : lastIdxOf c xs with
    | some j' =>
      rw [hx] at h
      cases h
      obtain ⟨h1, h2, h3⟩ := ih j' hx
      refine ⟨by simpa using Nat.succ_lt_succ h1, by simpa using h2, ?_⟩
      intro k hk hklen
      match k, hk with
      | k' + 1, hk =>
        have := h3 k' (Nat.lt_of_succ_lt_succ hk) (by simpa using hklen)
        simpa using this
    | none =>
      rw [hx] at h
      by_cases hxc : x = c
      · rw [if_pos hxc] at h
        cases h
        refine ⟨Nat.succ_pos _, by simpa using hxc, ?_⟩
        intro k hk hklen
        match k, hk with
        | k' + 1, _ =>
          intro hkc
          have hk' : k' < xs.length := by simpa using hklen
          have hgd : xs.getD k' ("") = c := by simpa using hkc
          have hmem : c ∈ xs := by
            rw [getD_of_lt _ _ _ hk'] at hgd
            exact hgd ▸ xs.getElem_mem hk'
          exact lastIdxOf_eq_none c xs hx hmem
      · rw [if_neg hxc] at h
        cases h

theorem take_open_memo_hit (pile : List Card) (i : Nat) (c : Card)
    (hi : i < pile.length) (hc : pile.getD i ("") = c) :
    take_open_discard_for_turn pile (some (i, c)) = some (c, pile.eraseIdx i) := by
  have hne : pile ≠ [] := by
    intro he
    rw [he] at hi
    cases hi
  unfold take_open_discard_for_turn
  cases hgl : pile.getLast? with
  | none => exact absurd (List.getLast?_eq_none_iff.mp hgl) hne
  | some top =>
    dsimp only
    rw [if_pos ⟨hi, hc⟩, hc]

theorem take_open_memo_fallback (pile : List Card) (i : Nat) (c : Card)
    (hnot : ¬ (i < pile.length ∧ pile.getD i ("") = c))
    (j : Nat) (hj : lastIdxOf c pile = some j) (hne : pile ≠ []) :
    take_open_discard_for_turn pile (some (i, c)) = some (c, pile.eraseIdx j) := by
  unfold take_open_discard_for_turn
  cases hgl : pile.getLast? with
  | none => exact absurd (List.getLast?_eq_none_iff.mp hgl) hne
  | some top =>
    dsimp only
    rw [if_neg hnot, hj]

theorem take_open_memo_miss (pile : List Card) (i : Nat) (c : Card)
    (hnot : ¬ (i < pile.length ∧ pile.getD i ("") = c))
    (hj : lastIdxOf c pile = none) (top : Card) (htop : pile.getLast? = some top) :
    take_open_discard_for_turn pile (some (i, c)) = some (top, pile.dropLast) := by
  unfold take_open_discard_for_turn
  rw [htop]
  dsimp only
  rw [if_neg hnot, hj]

theorem take_open_no_memo (pile : List Card) (top : Card)
    (htop : pile.getLast? = some top) :
    take_open_discard_for_turn pile none = some (top, pile.dropLast) := by
  unfold take_open_discard_for_turn
  rw [htop]

theorem handle_draw_discard_eq (s : GameState) (pid : Nat)
    (hg : s.game_started = true) (hne : s.turn_order ≠ [])
    (hturn : pid = turn_holder s) (hph : s.turn_phase pid = "draw")
    (hro : s.round_over = false) (c : Card) (p' : List Card)
    (hres : take_open_discard_for_turn s.discard_pile (s.turn_open_discard pid)
              = some (c, p')) :
    (handle_draw_discard s pid).hands pid = sortCards s.joker_rank (s.hands pid ++ [c])
    ∧ (handle_draw_discard s pid).discard_pile = p'
    ∧ (handle_draw_discard s pid).turn_phase pid = "discard"
    ∧ (handle_draw_discard s pid).current_turn_idx
        = (s.current_turn_idx + 1) % s.turn_order.length := by
  have hpile : s.discard_pile.isEmpty = false := by
    cases hpe : s.discard_pile with
    | nil =>
      rw [hpe] at hres
      cases hres
    | cons a l => rfl
  unfold handle_draw_discard
  rw [if_neg (by simp [hg]), if_neg (by simpa using hne),
      if_pos ⟨hturn, hph, hro⟩, if_neg (by simp [hpile])]
  dsimp only
  rw [hres]
  dsimp only
  refine ⟨?_, ?_, ?_, ?_⟩
  · rw [next_turn_hands]
    simp [updf]
  · rw [next_turn_discard_pile]
  · rw [next_turn_turn_phase]
    simp [updf]
  · exact next_turn_current_turn_idx _ hne

/-! Section C7 -/

/-- C7: for every valid `draw_discard` action, the card moved into the
caller's hand is the remembered open-at-turn-start card when it is still
present at its recorded index; otherwise the topmost pile card equal to
the remembered token; otherwise the current pile top.  Afterwards the
phase resets to `AwaitingDiscard` and the turn advances. -/
theorem draw_discard_takes_open_memo (s : GameState) (pid : Nat)
    (hg : s.game_started = true) (hne : s.turn_order ≠ [])
    (hturn : pid = turn_holder s) (hph : s.turn_phase pid = "draw")
    (hro : s.round_over = false) (hpile : s.discard_pile ≠ []) :
    (∀ i c, s.turn_open_discard pid = some (i, c) → i < s.discard_pile.length →
        s.discard_pile.getD i ("") = c →
        (handle_draw_discard s pid).hands pid
            = sortCards s.joker_rank (s.hands pid ++ [c])
        ∧ (handle_draw_discard s pid).discard_pile = s.discard_pile.eraseIdx i)
    ∧ (∀ i c, s.turn_open_discard pid = some (i, c)
        → ¬ (i < s.discard_pile.length ∧ s.discard_pile.getD i ("") = c)
        → ∀ j, lastIdxOf c s.discard_pile = some j →
          (handle_draw_discard s pid).hands pid
              = sortCards s.joker_rank (s.hands pid ++ [c])
          ∧ (handle_draw_discard s pid).discard_pile = s.discard_pile.eraseIdx j
          ∧ s.discard_pile.getD j ("") = c
          ∧ (∀ k, j < k → k < s.discard_pile.length → s.discard_pile.getD k ("") ≠ c))
    ∧ (∀ i c, s.turn_open_discard pid = some (i, c)
        → ¬ (i < s.discard_pile.length ∧ s.discard_pile.getD i ("") = c)
        → lastIdxOf c s.discard_pile = none
        → ∀ top, s.discard_pile.getLast? = some top →
          (handle_draw_discard s pid).hands pid
              = sortCards s.joker_rank (s.hands pid ++ [top])
          ∧ (handle_draw_discard s pid).discard_pile = s.discard_pile.dropLast)
    ∧ (s.turn_open_discard pid = none →
        ∀ top, s.discard_pile.getLast? = some top →
          (handle_draw_discard s pid).hands pid
              = sortCards s.joker_rank (s.hands pid ++ [top])
          ∧ (handle_draw_discard s pid).discard_pile = s.discard_pile.dropLast)
    ∧ (handle_draw_discard s pid).turn_phase pid = "discard"
    ∧ (handle_draw_discard s pid).current_turn_idx
        = (s.current_turn_idx + 1) % s.turn_order.length := by
  have htopx : ∃ top, s.discard_pile.getLast? = some top := by
    cases hpe : s.discard_pile with
    | nil => exact absurd hpe hpile
    | cons a l => exact ⟨(a :: l).getLast (by simp), List.getLast?_eq_getLast _ _⟩
  obtain ⟨top0, htop0⟩ := htopx
  refine ⟨?_, ?_, ?_, ?_, ?_, ?_⟩
  · intro i c hmemo hi hc
    have hres := take_open_memo_hit s.discard_pile i c hi hc
    rw [← hmemo] at hres
    obtain ⟨h1, h2, _, _⟩ := handle_draw_discard_eq s pid hg hne hturn hph hro _ _ hres
    exact ⟨h1, h2⟩
  · intro i c hmemo hnot j hj
    have hres := take_open_memo_fallback s.discard_pile i c hnot j hj hpile
    rw [← hmemo] at hres
    obtain ⟨h1, h2, _, _⟩ := handle_draw_discard_eq s pid hg hne hturn hph hro _ _ hres
    obtain ⟨hjl, hjc, hjlast⟩ := lastIdxOf_spec c s.discard_pile j hj
    exact ⟨h1, h2, hjc, hjlast⟩
  · intro i c hmemo hnot hj top htop
    have hres := take_open_memo_miss s.discard_pile i c hnot hj top htop
    rw [← hmemo] at hres
    obtain ⟨h1, h2, _, _⟩ := handle_draw_discard_eq s pid hg hne hturn hph hro _ _ hres
    exact ⟨h1, h2⟩
  · intro hmemo top htop
    have hres := take_open_no_memo s.discard_pile top htop
    rw [← hmemo] at hres
    obtain ⟨h1, h2, _, _⟩ := handle_draw_discard_eq s pid hg hne hturn hph hro _ _ hres
    exact ⟨h1, h2⟩
  · obtain ⟨c, p', hres⟩ : ∃ c p',
        take_open_discard_for_turn s.discard_pile (s.turn_open_discard pid)
          = some (c, p') := by
      unfold take_open_discard_for_turn
      rw [htop0]
      cases s.turn_open_discard pid with
      | none => exact ⟨top0, s.discard_pile.dropLast, rfl⟩
      | some ic =>
        obtain ⟨i, c⟩ := ic
        dsimp only
        split
        · exact ⟨_, _, rfl⟩
        · cases hj : lastIdxOf c s.discard_pile with
          | some j => exact ⟨_, _, rfl⟩
          | none => exact ⟨_, _, rfl⟩
    exact (handle_draw_discard_eq s pid hg hne hturn hph hro _ _ hres).2.2.1
  · obtain ⟨c, p', hres⟩ : ∃ c p',
        take_open_discard_for_turn s.discard_pile (s.turn_open_discard pid)
          = some (c, p') := by
      unfold take_open_discard_for_turn
      rw [htop0]
      cases s.turn_open_discard pid with
      | none => exact ⟨top0, s.discard_pile.dropLast, rfl⟩
      | some ic =>
        obtain ⟨i, c⟩ := ic
        dsimp only
        split
        · exact ⟨_, _, rfl⟩
        · cases hj : lastIdxOf c s.discard_pile with
          | some j => exact ⟨_, _, rfl⟩
          | none => exact ⟨_, _, rfl⟩
    exact (handle_draw_discard_eq s pid hg hne hturn hph hro _ _ hres).2.2.2

theorem draw_discard_takes_open_memo_witness :
    (wC7.game_started = true ∧ wC7.turn_order ≠ [] ∧ 1 = turn_holder wC7
      ∧ wC7.turn_phase 1 = "draw" ∧ wC7.round_over = false
      ∧ wC7.discard_pile ≠ []
      ∧ wC7.turn_open_discard 1 = some (0, "9H")
      ∧ (0 : Nat) < wC7.discard_pile.length ∧ wC7.discard_pile.getD 0 "" = "9H")
    ∧ ((handle_draw_discard wC7 1).hands 1
          = sortCards wC7.joker_rank (wC7.hands 1 ++ ["9H"])
      ∧ (handle_draw_discard wC7 1).discard_pile = wC7.discard_pile.eraseIdx 0) :=
  ⟨by decide,
   (draw_discard_takes_open_memo wC7 1 (by decide) (by decide) (by decide)
     (by decide) (by decide) (by decide)).1 0 "9H" (by decide) (by decide) (by decide)⟩

/-! Section C6 -/

theorem getD_append_left {α : Type} (l r : List α) (i : Nat) (d : α)
    (h : i < l.length) : (l ++ r).getD i d = l.getD i d := by
  have h2 : i < (l ++ r).length := by
    simp
    omega
  rw [List.getD_eq_getElem?_getD, List.getElem?_eq_getElem h2,
      List.getD_eq_getElem?_getD, List.getElem?_eq_getElem h]
  rw [List.getElem_append_left h]

/-- The full effect of a valid non-chaining discard: grouped removal,
appended pile, eligibility cleared, phase `"draw"`, everything else
(including the open-discard memo and the turn index) untouched. -/
theorem handle_discard_nochain (s : GameState) (pid : Nat) (card : Card)
    (hg : s.game_started = true) (hne : s.turn_order ≠ [])
    (hturn : pid = turn_holder s) (hph : s.turn_phase pid = "discard")
    (hro : s.round_over = false) (hin : card ∈ s.hands pid)
    (hnochain : ¬ prev_top_face s.discard_pile.getLast? = some (cardFace card)) :
    handle_discard s pid card = { s with
      hands := updf s.hands pid (sortCards s.joker_rank
        ((s.hands pid).filter (fun c => decide (¬ cardFace c = cardFace card)))),
      discard_pile := s.discard_pile
        ++ (s.hands pid).filter (fun c => decide (cardFace c = cardFace card)),
      show_available := updf s.show_available pid false,
      turn_phase := updf s.turn_phase pid ("draw") } := by
  unfold handle_discard
  rw [if_neg (by simp [hg]), if_neg (by simpa using hne),
      if_pos ⟨hturn, hph, hro, hin⟩]
  dsimp only
  rw [if_neg hnochain]

/-- C6 counterexample: at this valid non-chaining discard with a remembered
open-at-turn-start card, the remembered card is *not* transferred into the
caller's hand as part of the discard, the caller enters the `AwaitingDraw`
(`"draw"`) phase, and the turn does not advance — the transfer only happens
when the caller subsequently issues a `draw_discard` action.  This refutes
the claim as stated. -/
theorem discard_transfer_cex :
    cexC6.game_started = true ∧ cexC6.turn_order ≠ [] ∧ 1 = turn_holder cexC6
    ∧ cexC6.turn_phase 1 = "discard" ∧ cexC6.round_over = false
    ∧ "3C" ∈ cexC6.hands 1
    ∧ cexC6.turn_open_discard 1 = some (0, "9H")
    ∧ ¬ prev_top_face cexC6.discard_pile.getLast? = some (cardFace ("3C"))
    ∧ "9H" ∉ (handle_discard cexC6 1 "3C").hands 1
    ∧ "9H" ∈ (handle_discard cexC6 1 "3C").discard_pile
    ∧ (handle_discard cexC6 1 "3C").turn_phase 1 = "draw"
    ∧ (handle_discard cexC6 1 "3C").current_turn_idx = cexC6.current_turn_idx := by
  decide

/-- C6 (amended): a valid non-chaining discard leaves the caller in the
`AwaitingDraw` (`"draw"`) phase with the turn not yet advanced and the
open-at-turn-start memo intact; the remembered card is transferred into the
caller's hand only when the caller then issues `draw_discard`, which removes
it from the pile by its recorded index (the index is still valid because the
discard only appended to the pile), resets the phase to `"discard"` and
advances the turn. -/
theorem discard_then_draw_open_card (s : GameState) (pid : Nat) (card : Card)
    (hg : s.game_started = true) (hne : s.turn_order ≠ [])
    (hturn : pid = turn_holder s) (hph : s.turn_phase pid = "discard")
    (hro : s.round_over = false) (hin : card ∈ s.hands pid)
    (hnochain : ¬ prev_top_face s.discard_pile.getLast? = some (cardFace card))
    (i : Nat) (c : Card) (hmemo : s.turn_open_discard pid = some (i, c))
    (hi : i < s.discard_pile.length) (hic : s.discard_pile.getD i ("") = c) :
    (handle_discard s pid card).turn_phase pid = "draw"
    ∧ (handle_discard s pid card).current_turn_idx = s.current_turn_idx
    ∧ (handle_discard s pid card).turn_open_discard pid = some (i, c)
    ∧ (handle_draw_discard (handle_discard s pid card) pid).hands pid
        = sortCards s.joker_rank ((handle_discard s pid card).hands pid ++ [c])
    ∧ (handle_draw_discard (handle_discard s pid card) pid).discard_pile
        = (handle_discard s pid card).discard_pile.eraseIdx i
    ∧ (handle_draw_discard (handle_discard s pid card) pid).turn_phase pid = "discard"
    ∧ (handle_draw_discard (handle_discard s pid card) pid).current_turn_idx
        = (s.current_turn_idx + 1) % s.turn_order.length := by
  have heq := handle_discard_nochain s pid card hg hne hturn hph hro hin hnochain
  rw [heq]
  have hph1 : updf s.turn_phase pid ("draw") pid = "draw" := by simp [updf]
  refine ⟨hph1, rfl, hmemo, ?_⟩
  set s1 : GameState := { s with
    hands := updf s.hands pid (sortCards s.joker_rank
      ((s.hands pid).filter (fun c => decide (¬ cardFace c = cardFace card)))),
    discard_pile := s.discard_pile
      ++ (s.hands pid).filter (fun c => decide (cardFace c = cardFace card)),
    show_available := updf s.show_available pid false,
    turn_phase := updf s.turn_phase pid ("draw") } with hs1
  have hi1 : i < s1.discard_pile.length := by
    show i < (s.discard_pile ++ _).length
    rw [List.length_append]
    omega
  have hic1 : s1.discard_pile.getD i ("") = c := by
    show (s.discard_pile ++ _).getD i ("") = c
    rw [getD_append_left _ _ _ _ hi]
    exact hic
  have hres := take_open_memo_hit s1.discard_pile i c hi1 hic1
  have hmemo1 : s1.turn_open_discard pid = some (i, c) := hmemo
  rw [← hmemo1] at hres
  obtain ⟨h1, h2, h3, h4⟩ := handle_draw_discard_eq s1 pid hg hne hturn hph1 hro _ _ hres
  exact ⟨h1, h2, h3, h4⟩

theorem discard_then_draw_open_card_witness :
    (wC6.game_started = true ∧ wC6.turn_order ≠ [] ∧ 1 = turn_holder wC6
      ∧ wC6.turn_phase 1 = "discard" ∧ wC6.round_over = false
      ∧ "3C" ∈ wC6.hands 1
      ∧ ¬ prev_top_face wC6.discard_pile.getLast? = some (cardFace ("3C"))
      ∧ wC6.turn_open_discard 1 = some (0, "9H")
      ∧ (0 : Nat) < wC6.discard_pile.length ∧ wC6.discard_pile.getD 0 "" = "9H")
    ∧ ((handle_discard wC6 1 "3C").turn_phase 1 = "draw"
      ∧ (handle_discard wC6 1 "3C").current_turn_idx = wC6.current_turn_idx
      ∧ (handle_discard wC6 1 "3C").turn_open_discard 1 = some (0, "9H")
      ∧ (handle_draw_discard (handle_discard wC6 1 "3C") 1).hands 1
          = sortCards wC6.joker_rank ((handle_discard wC6 1 "3C").hands 1 ++ ["9H"])
      ∧ (handle_draw_discard (handle_discard wC6 1 "3C") 1).discard_pile
          = (handle_discard wC6 1 "3C").discard_pile.eraseIdx 0
      ∧ (handle_draw_discard (handle_discard wC6 1 "3C") 1).turn_phase 1 = "discard"
      ∧ (handle_draw_discard (handle_discard wC6 1 "3C") 1).current_turn_idx
          = (wC6.current_turn_idx + 1) % wC6.turn_order.length) :=
  ⟨by decide,
   discard_then_draw_open_card wC6 1 "3C" (by decide) (by decide) (by decide)
     (by decide) (by decide) (by decide) (by decide) 0 "9H" (by decide)
     (by decide) (by decide)⟩

/-! Section resolve_show helpers -/

theorem int_min?_spec (l : List Int) (m : Int) (h : l.min? = some m) :
    m ∈ l ∧ ∀ x ∈ l, m ≤ x := by
  haveI : Std.Antisymm (fun x1 x2 : Int => x1 ≤ x2) := ⟨fun h1 h2 => le_antisymm h1 h2⟩
  rw [List.min?_eq_some_iff (fun a => le_refl a)
      (fun a b => min_choice a b) (fun a b c => le_min_iff)] at h
  exact h

theorem insert_keys_mem (x : Nat) :
    ∀ (ks keys : List Nat), x ∈ insert_keys keys ks ↔ x ∈ keys ∨ x ∈ ks := by
  intro ks
  induction ks with
  | nil => intro keys; simp [insert_keys]
  | cons k ks ih =>
    intro keys
    unfold insert_keys
    rw [ih]
    by_cases hk : k ∈ keys
    · rw [if_pos hk]
      constructor
      · rintro (h | h)
        · exact Or.inl h
        · exact Or.inr (List.mem_cons_of_mem _ h)
      · rintro (h | h)
        · exact Or.inl h
        · rcases List.mem_cons.mp h with h | h
          · exact Or.inl (h ▸ hk)
          · exact Or.inr h
    · rw [if_neg hk]
      simp only [List.mem_append, List.mem_singleton, List.mem_cons]
      tauto

theorem insert_keys_nodup :
    ∀ (ks keys : List Nat), keys.Nodup → (insert_keys keys ks).Nodup := by
  intro ks
  induction ks with
  | nil => intro keys h; exact h
  | cons k ks ih =>
    intro keys h
    unfold insert_keys
    by_cases hk : k ∈ keys
    · rw [if_pos hk]
      exact ih keys h
    · rw [if_neg hk]
      refine ih _ ?_
      simpa [List.nodup_append] using ⟨h, hk⟩

theorem upd_scores_of_mem (keys : List Nat) (f : Nat → Int) (ks : List Nat)
    (rp : Nat → Int) (pid : Nat) (h : pid ∈ ks) (hk : pid ∈ keys) :
    upd_scores keys f ks rp pid = f pid + rp pid := by
  simp [upd_scores, h, hk]

theorem finish_show_scores_total (s : GameState) (p : Nat) (st : Int)
    (rp : Nat → Int) (ks : List Nat) (out : String) (sol mp : List Nat) :
    (finish_show s p st rp ks out sol mp).scores_total
      = upd_scores s.scores_keys s.scores_total ks rp := by
  unfold finish_show
  dsimp only
  split <;> rfl

theorem finish_show_scores_keys (s : GameState) (p : Nat) (st : Int)
    (rp : Nat → Int) (ks : List Nat) (out : String) (sol mp : List Nat) :
    (finish_show s p st rp ks out sol mp).scores_keys
      = insert_keys s.scores_keys ks := by
  unfold finish_show
  dsimp only
  split <;> rfl

theorem finish_show_eliminated (s : GameState) (p : Nat) (st : Int)
    (rp : Nat → Int) (ks : List Nat) (out : String) (sol mp : List Nat) :
    (finish_show s p st rp ks out sol mp).eliminated
      = fun pid => s.eliminated pid
          || decide (pid ∈ insert_keys s.scores_keys ks
               ∧ s.max_points_out < upd_scores s.scores_keys s.scores_total ks rp pid) := by
  unfold finish_show
  dsimp only
  split <;> rfl

theorem finish_show_max_points_out (s : GameState) (p : Nat) (st : Int)
    (rp : Nat → Int) (ks : List Nat) (out : String) (sol mp : List Nat) :
    (finish_show s p st rp ks out sol mp).max_points_out = s.max_points_out := by
  unfold finish_show
  dsimp only
  split <;> rfl

theorem finish_show_round_over (s : GameState) (p : Nat) (st : Int)
    (rp : Nat → Int) (ks : List Nat) (out : String) (sol mp : List Nat) :
    (finish_show s p st rp ks out sol mp).round_over = true := by
  unfold finish_show
  dsimp only
  split <;> rfl

theorem finish_show_summary (s : GameState) (p : Nat) (st : Int)
    (rp : Nat → Int) (ks : List Nat) (out : String) (sol mp : List Nat) :
    (finish_show s p st rp ks out sol mp).last_round_summary
      = some { round_no := s.round_no, joker_card := s.joker_card,
               joker_rank := s.joker_rank, show_pid := p, show_total := st,
               round_points := (insert_keys [] ks).map (fun q => (q, rp q)),
               outcome := out, same_or_less_players := sol, min_players := mp,
               newly_out := (insert_keys s.scores_keys ks).filter
                 (fun pid => decide (s.eliminated pid = false
                   ∧ s.max_points_out
                       < upd_scores s.scores_keys s.scores_total ks rp pid)) } := by
  unfold finish_show
  dsimp only
  split <;> rfl

theorem finish_show_round_history (s : GameState) (p : Nat) (st : Int)
    (rp : Nat → Int) (ks : List Nat) (out : String) (sol mp : List Nat) :
    (finish_show s p st rp ks out sol mp).round_history
      = s.round_history
        ++ [{ round_no := s.round_no,
              round_points := (insert_keys [] ks).map (fun q => (q, rp q)),
              show_pid := p, outcome := out }] := by
  unfold finish_show
  dsimp only
  split <;> rfl

/-- Function `resolve_show` under its guards reduces to one of the two
`finish_show` calls, with the shared round-points key list
`show_pid :: others`. -/
theorem resolve_show_branches (s : GameState) (p : Nat)
    (hro : s.round_over = false) (hmem : p ∈ s.turn_order)
    (hlim : hand_total s p ≤ SHOW_LIMIT) :
    (((s.turn_order.filter (fun q => decide (¬ q = p))).filter
          (fun q => decide (hand_total s q ≤ hand_total s p))).isEmpty = true
      ∧ resolve_show s p
          = finish_show s p (hand_total s p)
              (fun q => if q = p then 0 else hand_total s q)
              (p :: s.turn_order.filter (fun q => decide (¬ q = p))) "win"
              ((s.turn_order.filter (fun q => decide (¬ q = p))).filter
                (fun q => decide (hand_total s q ≤ hand_total s p))) [])
    ∨ (((s.turn_order.filter (fun q => decide (¬ q = p))).filter
          (fun q => decide (hand_total s q ≤ hand_total s p))).isEmpty = false
      ∧ resolve_show s p
          = finish_show s p (hand_total s p)
              (fun q => if q = p then SHOW_PENALTY
                        else if hand_total s q
                            = (((s.turn_order.filter (fun q => decide (¬ q = p))).map
                                  (fun q => hand_total s q)).min?).getD (hand_total s p)
                          then 0 else hand_total s q)
              (p :: s.turn_order.filter (fun q => decide (¬ q = p))) "penalty"
              ((s.turn_order.filter (fun q => decide (¬ q = p))).filter
                (fun q => decide (hand_total s q ≤ hand_total s p)))
              ((s.turn_order.filter (fun q => decide (¬ q = p))).filter
                (fun q => decide (hand_total s q
                  = (((s.turn_order.filter (fun q => decide (¬ q = p))).map
                        (fun q => hand_total s q)).min?).getD (hand_total s p))))) := by
  unfold resolve_show
  rw [if_neg (by simp [hro]), if_neg (by simpa using hmem)]
  dsimp only
  rw [if_pos hmem, if_neg (by simpa using hlim)]
  cases he : ((s.turn_order.filter (fun q => decide (¬ q = p))).filter
      (fun q => decide (hand_total s q ≤ hand_total s p))).isEmpty
  · right
    refine ⟨rfl, ?_⟩
    rw [if_neg (by simp)]
  · left
    refine ⟨rfl, ?_⟩
    rw [if_pos rfl]

/-! Section C1 -/

/-- C1: when `resolve_show` passes its guards (round not over, caller in
the turn order, caller's hand total at most the show limit 8): if no other
active player's total is ≤ the caller's, the outcome is `"win"`, the caller
gains 0 and every other player gains their own hand total; otherwise the
outcome is `"penalty"`, the caller gains exactly 40, every other player
whose total is minimal among the others gains 0 (all tied minima, not just
one), and every remaining player gains their own hand total — all added to
the cumulative scores. -/
theorem resolve_show_scoring (s : GameState) (p : Nat)
    (hro : s.round_over = false) (hmem : p ∈ s.turn_order)
    (hlim : hand_total s p ≤ SHOW_LIMIT)
    (hkeys : ∀ q ∈ s.turn_order, q ∈ s.scores_keys) :
    ((∀ q ∈ s.turn_order.filter (fun q => decide (¬ q = p)),
        ¬ hand_total s q ≤ hand_total s p) →
      (∃ su, (resolve_show s p).last_round_summary = some su ∧ su.outcome = "win")
      ∧ (resolve_show s p).scores_total p = s.scores_total p
      ∧ ∀ q ∈ s.turn_order.filter (fun q => decide (¬ q = p)),
          (resolve_show s p).scores_total q = s.scores_total q + hand_total s q)
    ∧ ((∃ q ∈ s.turn_order.filter (fun q => decide (¬ q = p)),
          hand_total s q ≤ hand_total s p) →
      (∃ su, (resolve_show s p).last_round_summary = some su
        ∧ su.outcome = "penalty")
      ∧ (resolve_show s p).scores_total p = s.scores_total p + SHOW_PENALTY
      ∧ ∀ q ∈ s.turn_order.filter (fun q => decide (¬ q = p)),
          ((∀ r ∈ s.turn_order.filter (fun q => decide (¬ q = p)),
              hand_total s q ≤ hand_total s r) →
            (resolve_show s p).scores_total q = s.scores_total q)
          ∧ ((∃ r ∈ s.turn_order.filter (fun q => decide (¬ q = p)),
              hand_total s r < hand_total s q) →
            (resolve_show s p).scores_total q = s.scores_total q + hand_total s q)) := by
  have hbr := resolve_show_branches s p hro hmem hlim
  constructor
  · -- win clause
    intro hwin
    rcases hbr with ⟨hemp, heq⟩ | ⟨hnemp, heq⟩
    · refine ⟨?_, ?_, ?_⟩
      · rw [heq, finish_show_summary]
        exact ⟨_, rfl, rfl⟩
      · rw [heq, finish_show_scores_total,
            upd_scores_of_mem _ _ _ _ p (List.mem_cons_self _ _) (hkeys p hmem)]
        simp
      · intro q hq
        have hqp : ¬ q = p := by simpa using (List.mem_filter.mp hq).2
        rw [heq, finish_show_scores_total,
            upd_scores_of_mem _ _ _ _ q (List.mem_cons_of_mem _ hq)
              (hkeys q (List.mem_filter.mp hq).1)]
        rw [if_neg hqp]
    · exfalso
      rw [List.isEmpty_eq_false_iff_exists_mem] at hnemp
      obtain ⟨q, hq⟩ := hnemp
      have h1 := List.mem_filter.mp hq
      have h2 : hand_total s q ≤ hand_total s p := by simpa using h1.2
      exact hwin q h1.1 h2
  · -- penalty clause
    intro hpen
    rcases hbr with ⟨hemp, heq⟩ | ⟨hnemp, heq⟩
    · exfalso
      obtain ⟨q, hq, hle⟩ := hpen
      rw [List.isEmpty_iff] at hemp
      have : q ∈ (s.turn_order.filter (fun q => decide (¬ q = p))).filter
          (fun q => decide (hand_total s q ≤ hand_total s p)) :=
        List.mem_filter.mpr ⟨hq, by simpa using hle⟩
      rw [hemp] at this
      cases this
    · obtain ⟨q0, hq0, hle0⟩ := hpen
      have hne : (s.turn_order.filter (fun q => decide (¬ q = p))).map
          (fun q => hand_total s q) ≠ [] := by
        simp only [ne_eq, List.map_eq_nil_iff]
        intro h0
        rw [h0] at hq0
        cases hq0
      obtain ⟨m0, hm0⟩ : ∃ m0, ((s.turn_order.filter (fun q => decide (¬ q = p))).map
          (fun q => hand_total s q)).min? = some m0 := by
        cases hmin : ((s.turn_order.filter (fun q => decide (¬ q = p))).map
            (fun q => hand_total s q)).min? with
        | none => exact absurd (List.min?_eq_none_iff.mp hmin) hne
        | some m => exact ⟨m, rfl⟩
      obtain ⟨hm0mem, hm0le⟩ := int_min?_spec _ _ hm0
      obtain ⟨r0, hr0, hr0eq⟩ := List.mem_map.mp hm0mem
      refine ⟨?_, ?_, ?_⟩
      · rw [heq, finish_show_summary]
        exact ⟨_, rfl, rfl⟩
      · rw [heq, finish_show_scores_total,
            upd_scores_of_mem _ _ _ _ p (List.mem_cons_self _ _) (hkeys p hmem)]
        simp
      · intro q hq
        have hqp : ¬ q = p := by simpa using (List.mem_filter.mp hq).2
        have hscq : (resolve_show s p).scores_total q
            = s.scores_total q
              + (if hand_total s q
                    = (((s.turn_order.filter (fun q => decide (¬ q = p))).map
                          (fun q => hand_total s q)).min?).getD (hand_total s p)
                  then 0 else hand_total s q) := by
          rw [heq, finish_show_scores_total,
              upd_scores_of_mem _ _ _ _ q (List.mem_cons_of_mem _ hq)
                (hkeys q (List.mem_filter.mp hq).1)]
          rw [if_neg hqp]
        rw [hm0] at hscq
        constructor
        · intro hqmin
          have hq_le_m0 : hand_total s q ≤ m0 := hr0eq ▸ hqmin r0 hr0
          have hm0_le_q : m0 ≤ hand_total s q :=
            hm0le _ (List.mem_map.mpr ⟨q, hq, rfl⟩)
          have : hand_total s q = m0 := le_antisymm hq_le_m0 hm0_le_q
          rw [hscq, if_pos (by simpa using this)]
          simp
        · intro hqnot
          obtain ⟨r, hr, hrlt⟩ := hqnot
          have hm0_le_r : m0 ≤ hand_total s r :=
            hm0le _ (List.mem_map.mpr ⟨r, hr, rfl⟩)
          have hne2 : ¬ hand_total s q = m0 := by
            intro heq2
            rw [heq2] at hrlt
            exact absurd hm0_le_r (not_le.mpr hrlt)
          rw [hscq, if_neg (by simpa using hne2)]

theorem resolve_show_scoring_witness :
    (wC1.round_over = false ∧ 1 ∈ wC1.turn_order
      ∧ hand_total wC1 1 ≤ SHOW_LIMIT
      ∧ (∀ q ∈ wC1.turn_order, q ∈ wC1.scores_keys)
      ∧ (∃ q ∈ wC1.turn_order.filter (fun q => decide (¬ q = 1)),
          hand_total wC1 q ≤ hand_total wC1 1))
    ∧ ((∃ su, (resolve_show wC1 1).last_round_summary = some su
        ∧ su.outcome = "penalty")
      ∧ (resolve_show wC1 1).scores_total 1 = wC1.scores_total 1 + SHOW_PENALTY
      ∧ ∀ q ∈ wC1.turn_order.filter (fun q => decide (¬ q = 1)),
          ((∀ r ∈ wC1.turn_order.filter (fun q => decide (¬ q = 1)),
              hand_total wC1 q ≤ hand_total wC1 r) →
            (resolve_show wC1 1).scores_total q = wC1.scores_total q)
          ∧ ((∃ r ∈ wC1.turn_order.filter (fun q => decide (¬ q = 1)),
              hand_total wC1 r < hand_total wC1 q) →
            (resolve_show wC1 1).scores_total q
              = wC1.scores_total q + hand_total wC1 q)) :=
  ⟨by decide,
   (resolve_show_scoring wC1 1 (by decide) (by decide) (by decide)
     (by decide)).2 (by decide)⟩

/-! Section C2 -/

/-- C2: the show action is a complete no-op — the whole state is returned
unchanged — whenever the round is already over, or the caller's hand total
exceeds the show limit 8, or the caller is not the current turn holder, or
the caller's phase is not `AwaitingDiscard` (`"discard"`), or the caller's
show-eligibility flag is false. -/
theorem show_action_noop (s : GameState) (pid : Nat)
    (h : s.round_over = true
       ∨ SHOW_LIMIT < hand_total s pid
       ∨ (s.turn_order ≠ [] → pid ≠ turn_holder s)
       ∨ s.turn_phase pid ≠ "discard"
       ∨ s.show_available pid = false) :
    handle_show s pid = s := by
  unfold handle_show
  split
  · rfl
  split
  · rfl
  split
  · rename_i hne hcond
    obtain ⟨hturn, hph, hav, hro⟩ := hcond
    have hne' : s.turn_order ≠ [] := by
      intro he
      rw [he] at hne
      exact hne rfl
    rcases h with h | h | h | h | h
    · rw [h] at hro; cases hro
    · unfold resolve_show
      rw [if_neg (by rw [hro]; exact Bool.false_ne_true)]
      split
      · rfl
      · rename_i hmem
        rw [if_pos]
        rw [if_pos (not_not.mp hmem)]
        exact h
    · exact absurd hturn (h hne')
    · exact absurd hph h
    · rw [h] at hav; cases hav
  · rfl

theorem show_action_noop_witness :
    (wC2.round_over = true ∨ SHOW_LIMIT < hand_total wC2 1
      ∨ (wC2.turn_order ≠ [] → 1 ≠ turn_holder wC2)
      ∨ wC2.turn_phase 1 ≠ "discard" ∨ wC2.show_available 1 = false)
    ∧ handle_show wC2 1 = wC2 :=
  ⟨Or.inl rfl, show_action_noop wC2 1 (Or.inl rfl)⟩

/-! Section C3 -/

/-- C3: after `resolve_show` adds the round points to the cumulative
scores, a player is eliminated in the resulting state iff they were already
eliminated or their updated cumulative score strictly exceeds
`max_points_out`; a score exactly equal to `max_points_out` never
eliminates; and the `newly_out` record lists exactly the
not-previously-eliminated players over the limit — each at most once, and
never an already-eliminated player (no re-elimination, no double count). -/
theorem resolve_show_elimination (s : GameState) (p : Nat)
    (hro : s.round_over = false) (hmem : p ∈ s.turn_order)
    (hlim : hand_total s p ≤ SHOW_LIMIT) :
    (∀ q, (resolve_show s p).eliminated q = true
        ↔ (s.eliminated q = true
            ∨ (q ∈ (resolve_show s p).scores_keys
                ∧ s.max_points_out < (resolve_show s p).scores_total q)))
    ∧ (∀ q, s.eliminated q = false →
        (resolve_show s p).scores_total q = s.max_points_out →
        (resolve_show s p).eliminated q = false)
    ∧ (∃ su, (resolve_show s p).last_round_summary = some su
        ∧ su.newly_out = (resolve_show s p).scores_keys.filter
            (fun q => decide (s.eliminated q = false
              ∧ s.max_points_out < (resolve_show s p).scores_total q))
        ∧ (s.scores_keys.Nodup → su.newly_out.Nodup)
        ∧ ∀ q, s.eliminated q = true → q ∉ su.newly_out) := by
  obtain ⟨rp, ks, out, sol, mp, heq⟩ :
      ∃ rp ks out sol mp,
        resolve_show s p = finish_show s p (hand_total s p) rp ks out sol mp := by
    rcases resolve_show_branches s p hro hmem hlim with ⟨-, heq⟩ | ⟨-, heq⟩
    · exact ⟨_, _, _, _, _, heq⟩
    · exact ⟨_, _, _, _, _, heq⟩
  rw [heq, finish_show_scores_keys, finish_show_scores_total,
      finish_show_eliminated, finish_show_summary]
  refine ⟨?_, ?_, ?_⟩
  · intro q
    simp
  · intro q hq hscore
    simp [hq, hscore]
  · refine ⟨_, rfl, rfl, ?_, ?_⟩
    · intro hnd
      exact List.Nodup.filter _ (insert_keys_nodup ks s.scores_keys hnd)
    · intro q hq hqmem
      have := List.mem_filter.mp hqmem
      rw [decide_eq_true_eq] at this
      rw [hq] at this
      exact absurd this.2.1 (by simp)

theorem resolve_show_elimination_witness :
    (wC3.round_over = false ∧ 1 ∈ wC3.turn_order
      ∧ hand_total wC3 1 ≤ SHOW_LIMIT)
    ∧ ((∀ q, (resolve_show wC3 1).eliminated q = true
        ↔ (wC3.eliminated q = true
            ∨ (q ∈ (resolve_show wC3 1).scores_keys
                ∧ wC3.max_points_out < (resolve_show wC3 1).scores_total q)))
      ∧ (∀ q, wC3.eliminated q = false →
          (resolve_show wC3 1).scores_total q = wC3.max_points_out →
          (resolve_show wC3 1).eliminated q = false)
      ∧ (∃ su, (resolve_show wC3 1).last_round_summary = some su
          ∧ su.newly_out = (resolve_show wC3 1).scores_keys.filter
              (fun q => decide (wC3.eliminated q = false
                ∧ wC3.max_points_out < (resolve_show wC3 1).scores_total q))
          ∧ (wC3.scores_keys.Nodup → su.newly_out.Nodup)
          ∧ ∀ q, wC3.eliminated q = true → q ∉ su.newly_out)) :=
  ⟨by decide,
   resolve_show_elimination wC3 1 (by decide) (by decide) (by decide)⟩

/-! Section Witnesses for C9 and C10 -/

theorem card_points_spec_witness :
    (("QS" : Card) = "ZB" ∨ ("QS" : Card) = "ZR"
      ∨ some (cardFace ("QS")) = some ("Q"))
    ∧ card_points (some ("Q")) "QS" = 0 :=
  ⟨by decide, (card_points_spec (some ("Q")) "QS").1 (by decide)⟩

theorem joker_grouped_discard_witness :
    ((("ZB" : Card) = "ZB" ∨ ("ZB" : Card) = "ZR")
      ∧ wC10.game_started = true ∧ wC10.turn_order ≠ []
      ∧ 1 = turn_holder wC10 ∧ wC10.turn_phase 1 = "discard"
      ∧ wC10.round_over = false ∧ "ZB" ∈ wC10.hands 1)
    ∧ (cardFace ("ZB") = "Z" ∧ cardFace ("ZR") = "Z"
      ∧ "ZB" ∉ (handle_discard wC10 1 "ZB").hands 1
      ∧ "ZR" ∉ (handle_discard wC10 1 "ZB").hands 1
      ∧ (handle_discard wC10 1 "ZB").discard_pile.count ("ZB")
          = wC10.discard_pile.count ("ZB") + ((wC10.hands 1).count ("ZB"))
      ∧ (handle_discard wC10 1 "ZB").discard_pile.count ("ZR")
          = wC10.discard_pile.count ("ZR") + ((wC10.hands 1).count ("ZR"))) :=
  ⟨by decide,
   joker_grouped_discard wC10 1 "ZB" (Or.inl rfl) (by decide) (by decide)
     (by decide) (by decide) (by decide) (by decide)⟩

/-! Section C8 toolkit: card conservation -/

theorem eraseIdx_perm (x : Card) :
    ∀ (l : List Card) (i : Nat), i < l.length →
      (l.getD i x :: l.eraseIdx i).Perm l := by
  intro l
  induction l with
  | nil => intro i h; cases h
  | cons a t ih =>
    intro i h
    cases i with
    | zero => exact List.Perm.refl _
    | succ i =>
      have hi : i < t.length := by simpa using h
      exact (List.Perm.swap a (t.getD i x) (t.eraseIdx i)).trans ((ih i hi).cons a)

theorem dropLast_top_perm (l : List Card) (top : Card)
    (h : l.getLast? = some top) : (top :: l.dropLast).Perm l := by
  have hne : l ≠ [] := by
    intro he
    rw [he] at h
    cases h
  have h2 : l.getLast hne = top := by
    have := List.getLast?_eq_getLast l hne
    rw [h] at this
    exact (Option.some_injective _ this).symm
  have h4 : l.dropLast ++ [top] = l := by
    rw [← h2]
    exact List.dropLast_append_getLast hne
  exact ((List.perm_append_singleton _ _).symm).trans (List.Perm.of_eq h4)

/-- Conservation of `take_open_discard_for_turn`: on a non-empty pile it
always pops exactly one card. -/
theorem take_open_conserves (pile : List Card) (memo : Option (Nat × Card))
    (hne : pile ≠ []) :
    ∃ c p', take_open_discard_for_turn pile memo = some (c, p')
      ∧ (c :: p').Perm pile := by
  obtain ⟨top, htop⟩ : ∃ top, pile.getLast? = some top := by
    cases hp : pile with
    | nil => exact absurd hp hne
    | cons a l => exact ⟨_, List.getLast?_eq_getLast _ (by simp)⟩
  cases memo with
  | none =>
    exact ⟨top, pile.dropLast, take_open_no_memo pile top htop,
      dropLast_top_perm pile top htop⟩
  | some ic =>
    obtain ⟨i, c⟩ := ic
    by_cases hhit : i < pile.length ∧ pile.getD i ("") = c
    · refine ⟨c, pile.eraseIdx i, ?_, ?_⟩
      · rw [take_open_memo_hit pile i c hhit.1 hhit.2]
      · have := eraseIdx_perm ("") pile i hhit.1
        rw [hhit.2] at this
        exact this
    · cases hj : lastIdxOf c pile with
      | some j =>
        obtain ⟨hjl, hjc, -⟩ := lastIdxOf_spec c pile j hj
        refine ⟨c, pile.eraseIdx j, take_open_memo_fallback pile i c hhit j hj hne, ?_⟩
        have := eraseIdx_perm ("") pile j hjl
        rw [hjc] at this
        exact this
      | none =>
        exact ⟨top, pile.dropLast, take_open_memo_miss pile i c hhit hj top htop,
          dropLast_top_perm pile top htop⟩

theorem deal_n_perm (d : List Card) (n : Nat) :
    ((deal_n d n).1 ++ (deal_n d n).2).Perm d := by
  unfold deal_n
  have h1 : ((d.drop (d.length - n)).reverse ++ d.take (d.length - n)).Perm
      (d.drop (d.length - n) ++ d.take (d.length - n)) :=
    (List.reverse_perm _).append_right _
  have h2 : (d.drop (d.length - n) ++ d.take (d.length - n)).Perm d :=
    List.perm_append_comm.trans (List.Perm.of_eq (List.take_append_drop _ _))
  exact h1.trans h2

theorem hands_sum_cons (a : Nat) (rest : List Nat) (f : Nat → List Card) :
    hands_sum (a :: rest) f = (f a : Multiset Card) + hands_sum rest f := by
  unfold hands_sum
  rw [List.map_cons, List.sum_cons]

theorem hands_sum_congr (f g : Nat → List Card) :
    ∀ tord : List Nat, (∀ q ∈ tord, f q = g q) →
      hands_sum tord f = hands_sum tord g := by
  intro tord
  induction tord with
  | nil => intro _; rfl
  | cons a rest ih =>
    intro h
    rw [hands_sum_cons, hands_sum_cons, h a (List.mem_cons_self _ _),
        ih (fun q hq => h q (List.mem_cons_of_mem _ hq))]

theorem hands_sum_updf (f : Nat → List Card) (pid : Nat) (h : List Card) :
    ∀ tord : List Nat, tord.Nodup → pid ∈ tord →
      hands_sum tord (updf f pid h) + (f pid : Multiset Card)
        = hands_sum tord f + (h : Multiset Card) := by
  intro tord
  induction tord with
  | nil => intro _ hm; cases hm
  | cons a rest ih =>
    intro hnd hm
    obtain ⟨hna, hndr⟩ := List.nodup_cons.mp hnd
    rw [hands_sum_cons, hands_sum_cons]
    rcases List.mem_cons.mp hm with hpa | hmem
    · subst hpa
      have hrest : hands_sum rest (updf f pid h) = hands_sum rest f :=
        hands_sum_congr _ _ rest (fun q hq => by
          have hqp : ¬ q = pid := fun he => hna (he ▸ hq)
          simp [updf, hqp])
      rw [hrest]
      have hv : updf f pid h pid = h := by simp [updf]
      rw [hv]
      abel
    · have hap : ¬ a = pid := fun he => hna (he ▸ hmem)
      have hv : updf f pid h a = f a := by simp [updf, hap]
      rw [hv, add_assoc, ih hndr hmem, ← add_assoc]

theorem deal_hands_frame (jr : Option String) :
    ∀ (tord : List Nat) (h : Nat → List Card) (d : List Card) (q : Nat), q ∉ tord →
      (deal_hands jr tord h d).1 q = h q := by
  intro tord
  induction tord with
  | nil => intro h d q _; rfl
  | cons pid rest ih =>
    intro h d q hq
    unfold deal_hands
    rw [ih _ _ q (fun hm => hq (List.mem_cons_of_mem _ hm))]
    have hqp : ¬ q = pid := fun he => hq (he ▸ List.mem_cons_self _ _)
    simp [updf, hqp]

theorem deal_hands_conserves (jr : Option String) :
    ∀ (tord : List Nat), tord.Nodup → ∀ (h : Nat → List Card) (d : List Card),
      ((deal_hands jr tord h d).2 : Multiset Card)
          + hands_sum tord (deal_hands jr tord h d).1
        = (d : Multiset Card) := by
  intro tord
  induction tord with
  | nil =>
    intro _ h d
    unfold deal_hands hands_sum
    simp
  | cons pid rest ih =>
    intro hnd h d
    obtain ⟨hna, hndr⟩ := List.nodup_cons.mp hnd
    unfold deal_hands
    dsimp only
    rw [hands_sum_cons]
    set dn := deal_n d HAND_SIZE with hdn_def
    set h1 := updf h pid (sortCards jr dn.1) with hh1
    have hframe : (deal_hands jr rest h1 dn.2).1 pid = sortCards jr dn.1 := by
      rw [deal_hands_frame jr rest h1 dn.2 pid hna, hh1]
      simp [updf]
    rw [hframe]
    have hsort : ((sortCards jr dn.1 : List Card) : Multiset Card)
        = (dn.1 : Multiset Card) :=
      Multiset.coe_eq_coe.mpr (sortCards_perm _ _)
    rw [hsort]
    have hih := ih hndr h1 dn.2
    have hdsum : (dn.1 : Multiset Card) + (dn.2 : Multiset Card)
        = (d : Multiset Card) := by
      rw [Multiset.coe_add]
      exact Multiset.coe_eq_coe.mpr (deal_n_perm d HAND_SIZE)
    have hac : ((deal_hands jr rest h1 dn.2).2 : Multiset Card)
          + ((dn.1 : Multiset Card) + hands_sum rest (deal_hands jr rest h1 dn.2).1)
        = (dn.1 : Multiset Card)
          + (((deal_hands jr rest h1 dn.2).2 : Multiset Card)
             + hands_sum rest (deal_hands jr rest h1 dn.2).1) := by
      abel
    rw [hac, hih, hdsum]

theorem turn_holder_mem (s : GameState)
    (hidx : s.current_turn_idx < s.turn_order.length) :
    turn_holder s ∈ s.turn_order := by
  unfold turn_holder
  rw [getD_of_lt _ _ _ hidx]
  exact List.getElem_mem hidx

theorem next_turn_card_multiset (s : GameState) :
    card_multiset (next_turn s) = card_multiset s := by
  unfold card_multiset hands_multiset
  rw [next_turn_deck, next_turn_discard_pile, next_turn_turn_order,
      next_turn_joker_card, next_turn_hands]

theorem next_turn_inv (pool : Multiset Card) (s : GameState)
    (hnd : s.turn_order.Nodup) (hne : s.turn_order ≠ [])
    (hcm : card_multiset s = pool) : RoundInv pool (next_turn s) := by
  refine ⟨?_, ?_, ?_⟩
  · rw [next_turn_turn_order]
    exact hnd
  · rw [next_turn_current_turn_idx s hne, next_turn_turn_order]
    exact Nat.mod_lt _ (List.length_pos.mpr hne)
  · rw [next_turn_card_multiset]
    exact hcm

/-- A grouped discard (cards of one face moved from the hand to the pile)
preserves the card multiset. -/
theorem discard_effect_multiset (pool : Multiset Card) (s : GameState) (pid : Nat)
    (face : String) (hnd : s.turn_order.Nodup) (hpid : pid ∈ s.turn_order)
    (hcm : card_multiset s = pool) (s1 : GameState)
    (hdeck : s1.deck = s.deck) (hto : s1.turn_order = s.turn_order)
    (hjk : s1.joker_card = s.joker_card)
    (hh : s1.hands = updf s.hands pid (sortCards s.joker_rank
      ((s.hands pid).filter (fun c => decide (¬ cardFace c = face)))))
    (hp : s1.discard_pile = s.discard_pile
      ++ (s.hands pid).filter (fun c => decide (cardFace c = face))) :
    card_multiset s1 = pool := by
  unfold card_multiset hands_multiset at hcm ⊢
  rw [hdeck, hto, hjk, hh, hp, ← hcm]
  set D := ((s.deck : List Card) : Multiset Card) with hD
  set P := ((s.discard_pile : List Card) : Multiset Card) with hP
  set R := (((s.hands pid).filter (fun c => decide (cardFace c = face))
    : List Card) : Multiset Card) with hR
  set K := (((s.hands pid).filter (fun c => decide (¬ cardFace c = face))
    : List Card) : Multiset Card) with hK
  set Hd := ((s.hands pid : List Card) : Multiset Card) with hHd
  set Sg := hands_sum s.turn_order s.hands with hSg
  set Sg' := hands_sum s.turn_order (updf s.hands pid (sortCards s.joker_rank
    ((s.hands pid).filter (fun c => decide (¬ cardFace c = face))))) with hSg'
  set J := ((s.joker_card.toList : List Card) : Multiset Card) with hJ
  have key : Sg' + Hd = Sg + K := by
    rw [hSg', hSg, hK, hHd]
    have h1 := hands_sum_updf s.hands pid (sortCards s.joker_rank
      ((s.hands pid).filter (fun c => decide (¬ cardFace c = face))))
      s.turn_order hnd hpid
    rw [h1]
    congr 1
    exact Multiset.coe_eq_coe.mpr (sortCards_perm _ _)
  have hpart : R + K = Hd := by
    rw [hR, hK, hHd, Multiset.coe_add]
    apply Multiset.coe_eq_coe.mpr
    have hq : (s.hands pid).filter (fun c => decide (¬ cardFace c = face))
        = (s.hands pid).filter (fun c => !(decide (cardFace c = face))) := by
      apply List.filter_congr
      intro c _
      rw [decide_not]
    rw [hq]
    exact List.filter_append_perm _ _
  have hPR : ((s.discard_pile
      ++ (s.hands pid).filter (fun c => decide (cardFace c = face))
      : List Card) : Multiset Card) = P + R := by
    rw [hP, hR, Multiset.coe_add]
  rw [hPR]
  refine add_right_cancel (show D + (P + R) + Sg' + J + Hd
      = D + P + Sg + J + Hd from ?_)
  calc D + (P + R) + Sg' + J + Hd
      = D + P + R + J + (Sg' + Hd) := by abel
    _ = D + P + R + J + (Sg + K) := by rw [key]
    _ = D + P + (R + K) + Sg + J := by abel
    _ = D + P + Hd + Sg + J := by rw [hpart]
    _ = D + P + Sg + J + Hd := by abel

/-- Moving one card `c` from the shoe or the pile into a hand preserves the
card multiset. -/
theorem pickup_effect_multiset (pool : Multiset Card) (s : GameState) (pid : Nat)
    (c : Card) (hnd : s.turn_order.Nodup) (hpid : pid ∈ s.turn_order)
    (hcm : card_multiset s = pool) (s1 : GameState)
    (hto : s1.turn_order = s.turn_order) (hjk : s1.joker_card = s.joker_card)
    (hh : s1.hands = updf s.hands pid (sortCards s.joker_rank (s.hands pid ++ [c])))
    (hsrc : (s1.deck : Multiset Card) + (s1.discard_pile : Multiset Card) + {c}
        = (s.deck : Multiset Card) + (s.discard_pile : Multiset Card)) :
    card_multiset s1 = pool := by
  unfold card_multiset hands_multiset at hcm ⊢
  rw [hto, hjk, hh, ← hcm]
  set D := ((s.deck : List Card) : Multiset Card) with hD
  set P := ((s.discard_pile : List Card) : Multiset Card) with hP
  set D' := ((s1.deck : List Card) : Multiset Card) with hD'
  set P' := ((s1.discard_pile : List Card) : Multiset Card) with hP'
  set Hd := ((s.hands pid : List Card) : Multiset Card) with hHd
  set Sg := hands_sum s.turn_order s.hands with hSg
  set Sg' := hands_sum s.turn_order
    (updf s.hands pid (sortCards s.joker_rank (s.hands pid ++ [c]))) with hSg'
  set J := ((s.joker_card.toList : List Card) : Multiset Card) with hJ
  have key : Sg' + Hd = Sg + (Hd + {c}) := by
    rw [hSg', hSg, hHd]
    have h1 := hands_sum_updf s.hands pid
      (sortCards s.joker_rank (s.hands pid ++ [c])) s.turn_order hnd hpid
    rw [h1]
    congr 1
    have h2 : ((sortCards s.joker_rank (s.hands pid ++ [c]) : List Card)
        : Multiset Card) = ((s.hands pid ++ [c] : List Card) : Multiset Card) :=
      Multiset.coe_eq_coe.mpr (sortCards_perm _ _)
    rw [h2, ← Multiset.coe_add]
    rfl
  refine add_right_cancel (show D' + P' + Sg' + J + Hd = D + P + Sg + J + Hd from ?_)
  calc D' + P' + Sg' + J + Hd
      = D' + P' + J + (Sg' + Hd) := by abel
    _ = D' + P' + J + (Sg + (Hd + {c})) := by rw [key]
    _ = (D' + P' + {c}) + Sg + J + Hd := by abel
    _ = (D + P) + Sg + J + Hd := by rw [hsrc]
    _ = D + P + Sg + J + Hd := by abel

theorem handle_discard_inv (pool : Multiset Card) (s : GameState) (pid : Nat)
    (card : Card) (hinv : RoundInv pool s) :
    RoundInv pool (handle_discard s pid card) := by
  obtain ⟨hnd, hidx, hcm⟩ := hinv
  have hne : s.turn_order ≠ [] := by
    intro he
    rw [he] at hidx
    cases hidx
  unfold handle_discard
  split
  · exact ⟨hnd, hidx, hcm⟩
  split
  · exact ⟨hnd, hidx, hcm⟩
  split
  · rename_i hcond
    obtain ⟨hturn, hph, hro, hin⟩ := hcond
    have hpid : pid ∈ s.turn_order := hturn ▸ turn_holder_mem s hidx
    dsimp only
    split
    · exact next_turn_inv pool _ hnd hne
        (discard_effect_multiset pool s pid (cardFace card) hnd hpid hcm _
          rfl rfl rfl rfl rfl)
    · exact ⟨hnd, hidx, discard_effect_multiset pool s pid (cardFace card)
        hnd hpid hcm _ rfl rfl rfl rfl rfl⟩
  · exact ⟨hnd, hidx, hcm⟩

theorem cons_coe_multiset (c : Card) (l : List Card) :
    ((l : List Card) : Multiset Card) + {c} = ((c :: l : List Card) : Multiset Card) := by
  calc ((l : List Card) : Multiset Card) + {c}
      = {c} + ((l : List Card) : Multiset Card) := by abel
    _ = c ::ₘ ((l : List Card) : Multiset Card) := Multiset.singleton_add _ _
    _ = ((c :: l : List Card) : Multiset Card) := Multiset.cons_coe _ _

theorem handle_draw_deck_inv (pool : Multiset Card) (s : GameState) (pid : Nat)
    (hinv : RoundInv pool s) : RoundInv pool (handle_draw_deck s pid) := by
  obtain ⟨hnd, hidx, hcm⟩ := hinv
  have hne : s.turn_order ≠ [] := by
    intro he
    rw [he] at hidx
    cases hidx
  unfold handle_draw_deck
  split
  · exact ⟨hnd, hidx, hcm⟩
  split
  · exact ⟨hnd, hidx, hcm⟩
  split
  · rename_i hcond
    obtain ⟨hturn, hph, hro⟩ := hcond
    have hpid : pid ∈ s.turn_order := hturn ▸ turn_holder_mem s hidx
    split
    · exact ⟨hnd, hidx, hcm⟩
    · rename_i c hc
      refine next_turn_inv pool _ hnd hne
        (pickup_effect_multiset pool s pid c hnd hpid hcm _ rfl rfl rfl ?_)
      show ((s.deck.dropLast : List Card) : Multiset Card)
          + (s.discard_pile : Multiset Card) + {c}
        = (s.deck : Multiset Card) + (s.discard_pile : Multiset Card)
      have hdl : ((s.deck.dropLast : List Card) : Multiset Card) + {c}
          = (s.deck : Multiset Card) := by
        rw [cons_coe_multiset]
        exact Multiset.coe_eq_coe.mpr (dropLast_top_perm s.deck c hc)
      calc ((s.deck.dropLast : List Card) : Multiset Card)
            + (s.discard_pile : Multiset Card) + {c}
          = (((s.deck.dropLast : List Card) : Multiset Card) + {c})
            + (s.discard_pile : Multiset Card) := by abel
        _ = (s.deck : Multiset Card) + (s.discard_pile : Multiset Card) := by rw [hdl]
  · exact ⟨hnd, hidx, hcm⟩

theorem handle_draw_discard_inv (pool : Multiset Card) (s : GameState) (pid : Nat)
    (hinv : RoundInv pool s) : RoundInv pool (handle_draw_discard s pid) := by
  obtain ⟨hnd, hidx, hcm⟩ := hinv
  have hne : s.turn_order ≠ [] := by
    intro he
    rw [he] at hidx
    cases hidx
  unfold handle_draw_discard
  split
  · exact ⟨hnd, hidx, hcm⟩
  split
  · exact ⟨hnd, hidx, hcm⟩
  split
  · rename_i hcond
    obtain ⟨hturn, hph, hro⟩ := hcond
    have hpid : pid ∈ s.turn_order := hturn ▸ turn_holder_mem s hidx
    split
    · exact ⟨hnd, hidx, hcm⟩
    · rename_i hpe
      have hpne : s.discard_pile ≠ [] := by
        intro he
        rw [he] at hpe
        exact hpe rfl
      obtain ⟨c, p', hres, hperm⟩ :=
        take_open_conserves s.discard_pile (s.turn_open_discard pid) hpne
      dsimp only
      rw [hres]
      dsimp only
      refine next_turn_inv pool _ hnd hne
        (pickup_effect_multiset pool s pid c hnd hpid hcm _ rfl rfl rfl ?_)
      show (s.deck : Multiset Card) + ((p' : List Card) : Multiset Card) + {c}
        = (s.deck : Multiset Card) + (s.discard_pile : Multiset Card)
      have hp : ((p' : List Card) : Multiset Card) + {c}
          = (s.discard_pile : Multiset Card) := by
        rw [cons_coe_multiset]
        exact Multiset.coe_eq_coe.mpr hperm
      calc (s.deck : Multiset Card) + ((p' : List Card) : Multiset Card) + {c}
          = (s.deck : Multiset Card) + (((p' : List Card) : Multiset Card) + {c}) := by
            abel
        _ = (s.deck : Multiset Card) + (s.discard_pile : Multiset Card) := by rw [hp]
  · exact ⟨hnd, hidx, hcm⟩

theorem roundStep_inv (pool : Multiset Card) {s s' : GameState}
    (hstep : RoundStep s s') (hinv : RoundInv pool s) : RoundInv pool s' := by
  cases hstep with
  | discard pid card => exact handle_discard_inv pool s pid card hinv
  | draw_deck pid => exact handle_draw_deck_inv pool s pid hinv
  | draw_discard pid => exact handle_draw_discard_inv pool s pid hinv

theorem dropLast_getLast_multiset (l : List Card) :
    ((l.dropLast : List Card) : Multiset Card)
      + ((l.getLast?.toList : List Card) : Multiset Card) = (l : Multiset Card) := by
  cases hl : l.getLast? with
  | none =>
    have he : l = [] := List.getLast?_eq_none_iff.mp hl
    subst he
    rfl
  | some top =>
    show ((l.dropLast : List Card) : Multiset Card)
        + (([top] : List Card) : Multiset Card) = (l : Multiset Card)
    rw [Multiset.coe_add]
    apply Multiset.coe_eq_coe.mpr
    exact (List.perm_append_singleton _ _).trans (dropLast_top_perm l top hl)

/-- Function `start_round_deal` establishes the in-round invariant with the full
shuffled deck as the card pool. -/
theorem start_round_deal_inv (s0 : GameState) (tord : List Nat) (deck0 : List Card)
    (hnd : tord.Nodup) (hne : tord ≠ []) :
    (start_round_deal s0 tord deck0).turn_order = tord
    ∧ RoundInv (deck0 : Multiset Card) (start_round_deal s0 tord deck0) := by
  refine ⟨rfl, hnd, ?_, ?_⟩
  · show 0 < tord.length
    exact List.length_pos.mpr hne
  · unfold start_round_deal
    dsimp only
    unfold card_multiset hands_multiset
    dsimp only
    have hdeal := deal_hands_conserves (prev_top_face deck0.getLast?) tord hnd
      s0.hands deck0.dropLast
    have hjoker := dropLast_getLast_multiset deck0
    cases hgl : (deal_hands (prev_top_face deck0.getLast?) tord s0.hands
        deck0.dropLast).2.getLast? with
    | none =>
      have he : (deal_hands (prev_top_face deck0.getLast?) tord s0.hands
          deck0.dropLast).2 = [] := List.getLast?_eq_none_iff.mp hgl
      dsimp only
      rw [he]
      rw [he] at hdeal
      calc ((([] : List Card) : Multiset Card)) + (([] : List Card) : Multiset Card)
            + hands_sum tord (deal_hands (prev_top_face deck0.getLast?) tord
                s0.hands deck0.dropLast).1
            + ((deck0.getLast?.toList : List Card) : Multiset Card)
          = ((([] : List Card) : Multiset Card)
              + hands_sum tord (deal_hands (prev_top_face deck0.getLast?) tord
                  s0.hands deck0.dropLast).1)
            + ((deck0.getLast?.toList : List Card) : Multiset Card) := by abel
        _ = ((deck0.dropLast : List Card) : Multiset Card)
            + ((deck0.getLast?.toList : List Card) : Multiset Card) := by rw [hdeal]
        _ = (deck0 : Multiset Card) := hjoker
    | some sc =>
      dsimp only
      have hseed := dropLast_getLast_multiset
        (deal_hands (prev_top_face deck0.getLast?) tord s0.hands deck0.dropLast).2
      rw [hgl] at hseed
      have hseed2 : (((deal_hands (prev_top_face deck0.getLast?) tord s0.hands
              deck0.dropLast).2.dropLast : List Card) : Multiset Card)
          + (([sc] : List Card) : Multiset Card)
          = (((deal_hands (prev_top_face deck0.getLast?) tord s0.hands
              deck0.dropLast).2 : List Card) : Multiset Card) := by
        simpa using hseed
      rw [hseed2, hdeal]
      exact hjoker

theorem rotation_nodup_ne (A : List Nat) (hAnd : A.Nodup) (hAne : A ≠ []) (d : Nat) :
    (if d ∈ A then A.drop (A.indexOf d + 1) ++ A.take (A.indexOf d + 1) else A).Nodup
    ∧ (if d ∈ A then A.drop (A.indexOf d + 1) ++ A.take (A.indexOf d + 1) else A)
        ≠ [] := by
  split
  · have hperm : (A.drop (A.indexOf d + 1) ++ A.take (A.indexOf d + 1)).Perm A :=
      List.perm_append_comm.trans (List.Perm.of_eq (List.take_append_drop _ _))
    constructor
    · exact hperm.nodup_iff.mpr hAnd
    · intro he
      have hlen := congrArg List.length he
      rw [List.length_append, List.length_drop, List.length_take] at hlen
      have hA0 : A.length ≠ 0 := fun h0 => hAne (List.length_eq_zero.mp h0)
      rw [List.length_nil] at hlen
      omega
  · exact ⟨hAnd, hAne⟩

/-- Function `start_round` with at least one active player is `start_round_deal` on
some duplicate-free, non-empty turn order. -/
theorem start_round_shape (shuffle : List Card → List Card) (s : GameState)
    (hord : s.player_order.Nodup)
    (hact : s.player_order.filter
      (fun pid => decide (pid ∈ s.scores_keys ∧ s.eliminated pid = false)) ≠ []) :
    ∃ (s0 : GameState) (tord : List Nat), tord.Nodup ∧ tord ≠ []
      ∧ start_round shuffle s
          = start_round_deal s0 tord
              (build_deck shuffle (num_decks_for_players tord.length)) := by
  unfold start_round
  dsimp only
  rw [if_neg (by simpa using hact)]
  set A := s.player_order.filter
    (fun pid => decide (pid ∈ s.scores_keys ∧ s.eliminated pid = false)) with hA
  have hAnd : A.Nodup := List.Nodup.filter _ hord
  refine ⟨_, _, ?_, ?_, rfl⟩
  · exact (rotation_nodup_ne A hAnd hact _).1
  · exact (rotation_nodup_ne A hAnd hact _).2

/-! Section C8 -/

/-- C8: in every state reachable within a round by the `discard`,
`draw_deck` and `draw_discard` handlers from the state `start_round`
produces (with a permutation-producing shuffle, duplicate-free player
order and at least one active player), the shoe, the discard pile, the
active players' hands and the designated joker together form exactly the
multiset of `numDecks * 54` cards built for the round, with
`numDecks ∈ {2,3,4}` derived from the active player count. -/
theorem card_conservation (shuffle : List Card → List Card)
    (hsh : ∀ l, (shuffle l).Perm l) (s : GameState)
    (hord : s.player_order.Nodup)
    (hact : s.player_order.filter
      (fun pid => decide (pid ∈ s.scores_keys ∧ s.eliminated pid = false)) ≠ [])
    (s' : GameState) (hreach : Reachable (start_round shuffle s) s') :
    (num_decks_for_players (start_round shuffle s).turn_order.length = 2
      ∨ num_decks_for_players (start_round shuffle s).turn_order.length = 3
      ∨ num_decks_for_players (start_round shuffle s).turn_order.length = 4)
    ∧ card_multiset s'
        = (build_deck_pool
            (num_decks_for_players (start_round shuffle s).turn_order.length)
          : Multiset Card)
    ∧ (build_deck_pool
        (num_decks_for_players (start_round shuffle s).turn_order.length)).length
        = 54 * num_decks_for_players (start_round shuffle s).turn_order.length := by
  obtain ⟨s0, tord, hnd, hne, heq⟩ := start_round_shape shuffle s hord hact
  obtain ⟨hto, hinv0⟩ := start_round_deal_inv s0 tord
    (build_deck shuffle (num_decks_for_players tord.length)) hnd hne
  have hton : (start_round shuffle s).turn_order = tord := by rw [heq]; exact hto
  have hpool : ((build_deck shuffle (num_decks_for_players tord.length)
      : List Card) : Multiset Card)
      = ((build_deck_pool (num_decks_for_players tord.length) : List Card)
        : Multiset Card) :=
    Multiset.coe_eq_coe.mpr (hsh _)
  have hinv1 : RoundInv
      (build_deck_pool (num_decks_for_players tord.length) : Multiset Card)
      (start_round shuffle s) := by
    rw [heq]
    exact ⟨hinv0.1, hinv0.2.1, hpool ▸ hinv0.2.2⟩
  have hinv' : RoundInv
      (build_deck_pool (num_decks_for_players tord.length) : Multiset Card) s' := by
    induction hreach with
    | refl => exact hinv1
    | tail hsteps hstep ih => exact roundStep_inv _ hstep ih
  rw [hton]
  refine ⟨?_, hinv'.2.2, ?_⟩
  · unfold num_decks_for_players
    split
    · exact Or.inl rfl
    split
    · exact Or.inr (Or.inl rfl)
    · exact Or.inr (Or.inr rfl)
  · have h234 : num_decks_for_players tord.length = 2
        ∨ num_decks_for_players tord.length = 3
        ∨ num_decks_for_players tord.length = 4 := by
      unfold num_decks_for_players
      split
      · exact Or.inl rfl
      split
      · exact Or.inr (Or.inl rfl)
      · exact Or.inr (Or.inr rfl)
    rcases h234 with h2 | h3 | h4
    · rw [h2]; decide
    · rw [h3]; decide
    · rw [h4]; decide

theorem card_conservation_witness :
    ((∀ l : List Card, (id l).Perm l) ∧ wC8.player_order.Nodup
      ∧ wC8.player_order.filter
          (fun pid => decide (pid ∈ wC8.scores_keys ∧ wC8.eliminated pid = false))
          ≠ [])
    ∧ ((num_decks_for_players (start_round id wC8).turn_order.length = 2
        ∨ num_decks_for_players (start_round id wC8).turn_order.length = 3
        ∨ num_decks_for_players (start_round id wC8).turn_order.length = 4)
      ∧ card_multiset (start_round id wC8)
          = (build_deck_pool
              (num_decks_for_players (start_round id wC8).turn_order.length)
            : Multiset Card)
      ∧ (build_deck_pool
          (num_decks_for_players (start_round id wC8).turn_order.length)).length
          = 54 * num_decks_for_players (start_round id wC8).turn_order.length) :=
  ⟨⟨fun l => List.Perm.refl l, by decide, by decide⟩,
   card_conservation id (fun l => List.Perm.refl l) wC8 (by decide) (by decide)
     (start_round id wC8) Relation.ReflTransGen.refl⟩

end PiGame
